import Mathlib

/-!
Shallow embedding of the payment-app analytical pipeline
(`src/ml_models/sms_parser.py`, `advanced_sms_parser.py`, `matcher.py`,
`fraud_detector_clean.py`, `fraud_detector.py`) and proofs about it.

Conventions:
* Python strings are `List Char` (`Str`); Python `None`-able values are `Option`.
* Python floats are embedded as exact rationals `ℚ`, except where a claim is
  specifically about IEEE-754 evaluation, for which a binary64 value model
  (`F64` below) is used.
* `datetime.now()` is threaded as an explicit `PyDateTime` argument.
-/

abbrev Str := List Char

def strOf (s : String) : Str := s.toList

/-- Python `str.lower()` (ASCII). -/
def lowerStr (s : Str) : Str := s.map Char.toLower

/-- Python `str.upper()` (ASCII). -/
def upperStr (s : Str) : Str := s.map Char.toUpper

/-- Boolean test that `pat` is an initial segment of `s` (Python `s.startswith(pat)`). -/
def startsW : Str → Str → Bool
  | [], _ => true
  | _ :: _, [] => false
  | p :: ps, c :: cs => p == c && startsW ps cs

/-- Python substring containment `pat in s`. -/
def hasSub : Str → Str → Bool
  | pat, [] => pat.isEmpty
  | pat, c :: cs => startsW pat (c :: cs) || hasSub pat cs

/-- The whitespace characters stripped by Python `str.strip()` (ASCII range). -/
def pySpace (c : Char) : Bool :=
  c = ' ' || c = '\t' || c = '\n' || c = '\x0d' || c = '\x0b' || c = '\x0c'

/-- Python `str.strip()`. -/
def stripStr (s : Str) : Str :=
  ((s.dropWhile pySpace).reverse.dropWhile pySpace).reverse

/-- Keep the decimal digits of a string (`re.sub(r'[^\d]', '', s)` /
`re.sub(r'[^0-9]', '', s)`; both classes coincide on ASCII input). -/
def digitsOf (s : Str) : Str := s.filter Char.isDigit

/-- Value of a decimal digit character. -/
def digToNat (c : Char) : Nat := c.toNat - '0'.toNat

/-- Numeric value of a digit string. -/
def natOfDigits (s : Str) : Nat := s.foldl (fun acc c => 10 * acc + digToNat c) 0

/-- Python slice `s[a:b]` for `0 ≤ a ≤ b`. -/
def pySlice (s : Str) (a b : Nat) : Str := (s.drop a).take (b - a)

namespace SmsParser

/-- Embeds `SMSParser.clean_phone` (src/ml_models/sms_parser.py lines 66-82):
strip non-digits, then convert to the international `250...` digit form. -/
def clean_phone (phone : Str) : Option Str :=
  if phone = [] then none
  else if startsW (strOf "250") (digitsOf phone) then some (digitsOf phone)
  else if startsW (strOf "0") (digitsOf phone) ∧ (digitsOf phone).length = 10 then
    some (strOf "250" ++ (digitsOf phone).drop 1)
  else if (digitsOf phone).length = 9 then some (strOf "250" ++ digitsOf phone)
  else if 9 ≤ (digitsOf phone).length then some (digitsOf phone)
  else none

end SmsParser

namespace Matcher

/-- Embeds the inline customer/payment phone cleaning of `match_transaction`
(src/ml_models/matcher.py lines 38-43 and 46-51): strip `[^0-9]`, then
`0...` becomes `250...`; the `+250` branch is kept although it is unreachable
after the digit filter. -/
def cleanPhoneM (p : Str) : Str :=
  if startsW (strOf "0") (digitsOf p) then strOf "250" ++ (digitsOf p).drop 1
  else if startsW (strOf "+250") (digitsOf p) then (digitsOf p).drop 1
  else digitsOf p

end Matcher

namespace CleanDetector

/-- The character filter `re.sub(r'[^\\d+]', '', phone)` of
`SimpleFraudDetector.normalize_phone`. -/
def keepDigitsPlus (s : Str) : Str := s.filter (fun c => c.isDigit || c = '+')

/-- Embeds `SimpleFraudDetector.normalize_phone`
(src/ml_models/fraud_detector_clean.py lines 126-135): keep digits and `+`
(`keepDigitsPlus`), then force a leading `+250`/`+`. -/
def normalize_phone (phone : Str) : Str :=
  if startsW (strOf "0") (keepDigitsPlus phone) then
    strOf "+250" ++ (keepDigitsPlus phone).drop 1
  else if startsW (strOf "250") (keepDigitsPlus phone) then '+' :: keepDigitsPlus phone
  else if ¬ startsW (strOf "+") (keepDigitsPlus phone) then '+' :: keepDigitsPlus phone
  else keepDigitsPlus phone

/-- Count of adjacent equal character pairs,
`sum(1 for i in range(len(txid)-1) if txid[i] == txid[i+1])`. -/
def repeatedChars : Str → Nat
  | [] => 0
  | [_] => 0
  | a :: b :: rest => (if a = b then 1 else 0) + repeatedChars (b :: rest)

/-- The alternatives of the anchored pattern
`^(012|123|234|345|456|567|678|789|890)+`; `re.match` succeeds exactly when
the string starts with one of these triples. -/
def seqTriples : List Str :=
  [strOf "012", strOf "123", strOf "234", strOf "345", strOf "456",
   strOf "567", strOf "678", strOf "789", strOf "890"]

/-- Embeds `SimpleFraudDetector.is_suspicious_txid`
(src/ml_models/fraud_detector_clean.py lines 137-151). The comparison
`repeated_chars > len(txid) / 3` uses Python true division, embedded as an
exact rational comparison. -/
def is_suspicious_txid (txid : Str) : Bool :=
  if txid = [] ∨ txid.length < 6 then true
  else if ((txid.length : ℚ) / 3 < (repeatedChars txid : ℚ)) then true
  else if seqTriples.any (fun t => startsW t txid) then true
  else false

/-- Python `datetime` value as produced by `datetime.fromisoformat`;
`tzsec = some _` marks an aware datetime (UTC offset in seconds). -/
structure PyDateTime where
  year : Int
  month : Nat
  day : Nat
  hour : Nat
  minute : Nat
  second : ℚ
  tzsec : Option ℚ
deriving DecidableEq

/-- Python `s.replace('Z', '+00:00')`. -/
def replaceZ : Str → Str
  | [] => []
  | 'Z' :: r => strOf "+00:00" ++ replaceZ r
  | c :: r => c :: replaceZ r

/-- Read exactly two decimal digits. -/
def p2 : Str → Option (Nat × Str)
  | a :: b :: r =>
    if a.isDigit ∧ b.isDigit then some (10 * digToNat a + digToNat b, r) else none
  | _ => none

/-- Days in a month of the proleptic Gregorian calendar. -/
def daysInMonth (y : Int) (m : Nat) : Nat :=
  if m = 2 then
    if y % 4 = 0 ∧ (y % 100 ≠ 0 ∨ y % 400 = 0) then 29 else 28
  else if m = 4 ∨ m = 6 ∨ m = 9 ∨ m = 11 then 30
  else 31

/-- Parse the mandatory `YYYY-MM-DD` head of an ISO string, validating ranges
as `datetime.fromisoformat` does. -/
def parseDate (s : Str) : Option ((Int × Nat × Nat) × Str) :=
  match s with
  | y1 :: y2 :: y3 :: y4 :: '-' :: m1 :: m2 :: '-' :: d1 :: d2 :: rest =>
    if y1.isDigit ∧ y2.isDigit ∧ y3.isDigit ∧ y4.isDigit ∧
       m1.isDigit ∧ m2.isDigit ∧ d1.isDigit ∧ d2.isDigit then
      let y : Int := (natOfDigits [y1, y2, y3, y4] : Int)
      let mo := 10 * digToNat m1 + digToNat m2
      let d := 10 * digToNat d1 + digToNat d2
      if 1 ≤ y ∧ 1 ≤ mo ∧ mo ≤ 12 ∧ 1 ≤ d ∧ d ≤ daysInMonth y mo then
        some ((y, mo, d), rest)
      else none
    else none
  | _ => none

/-- Parse `HH[:MM[:SS[.fff[fff]]]]`, validating ranges. -/
def parseHMS (s : Str) : Option ((Nat × Nat × ℚ) × Str) :=
  match p2 s with
  | none => none
  | some (h, r1) =>
    if 23 < h then none
    else
      match r1 with
      | ':' :: r2 =>
        match p2 r2 with
        | none => none
        | some (mi, r3) =>
          if 59 < mi then none
          else
            match r3 with
            | ':' :: r4 =>
              match p2 r4 with
              | none => none
              | some (se, r5) =>
                if 59 < se then none
                else
                  match r5 with
                  | '.' :: r6 =>
                    let fr := r6.takeWhile Char.isDigit
                    if fr.length = 3 ∨ fr.length = 6 then
                      some ((h, mi, (se : ℚ) + (natOfDigits fr : ℚ) / 10 ^ fr.length),
                            r6.drop fr.length)
                    else none
                  | _ => some ((h, mi, (se : ℚ)), r5)
            | _ => some ((h, mi, 0), r3)
      | _ => some ((h, 0, 0), r1)

/-- Parse a trailing UTC offset `±HH:MM[:SS]` (empty input means naive). -/
def parseOffset (s : Str) : Option (Option ℚ) :=
  match s with
  | [] => some none
  | sign :: r =>
    if sign = '+' ∨ sign = '-' then
      match p2 r with
      | none => none
      | some (oh, r1) =>
        match r1 with
        | ':' :: r2 =>
          match p2 r2 with
          | none => none
          | some (om, r3) =>
            if 59 < om then none
            else
              let base : ℚ := (oh : ℚ) * 3600 + (om : ℚ) * 60
              match r3 with
              | [] => some (some (if sign = '-' then -base else base))
              | ':' :: r4 =>
                match p2 r4 with
                | none => none
                | some (os, r5) =>
                  if 59 < os ∨ r5 ≠ [] then none
                  else some (some (if sign = '-' then -(base + os) else base + os))
              | _ => none
        | _ => none
    else none

/-- Embeds `datetime.fromisoformat` for the strict pre-3.11 grammar
`YYYY-MM-DD[<sep>HH[:MM[:SS[.fff[fff]]]][±HH:MM[:SS]]]`; returns `none` where
Python raises `ValueError`. -/
def fromisoformat (s : Str) : Option PyDateTime :=
  match parseDate s with
  | none => none
  | some ((y, mo, d), rest) =>
    match rest with
    | [] => some ⟨y, mo, d, 0, 0, 0, none⟩
    | _ :: timeStr =>
      match parseHMS timeStr with
      | none => none
      | some ((h, mi, se), rest2) =>
        match parseOffset rest2 with
        | none => none
        | some tz => some ⟨y, mo, d, h, mi, se, tz⟩

/-- Days since 1970-01-01 of a proleptic Gregorian date
(the arithmetic `datetime` subtraction is based on). -/
def civilDays (y : Int) (m d : Nat) : Int :=
  let y' : Int := if m ≤ 2 then y - 1 else y
  let era : Int := (if 0 ≤ y' then y' else y' - 399) / 400
  let yoe : Int := y' - era * 400
  let mp : Int := ((m : Int) + 9) % 12
  let doy : Int := (153 * mp + 2) / 5 + (d : Int) - 1
  let doe : Int := yoe * 365 + yoe / 4 - yoe / 100 + doy
  era * 146097 + doe - 719468

/-- Seconds since the epoch of a (naive) `PyDateTime`. -/
def toSeconds (dt : PyDateTime) : ℚ :=
  (civilDays dt.year dt.month dt.day : ℚ) * 86400 +
    (dt.hour : ℚ) * 3600 + (dt.minute : ℚ) * 60 + dt.second

/-- A record of the caller-supplied `payment_history` list; only `txid` and
`created_at` are read by the detector. -/
structure HistEntry where
  txid : Option Str
  created_at : Option Str
deriving DecidableEq

/-- The `payment_data` sub-dictionary of a verification transaction. -/
structure PaymentData where
  txid : Option Str
  sender_number : Option Str
  amount : Option ℚ
  timestamp : Option Str
deriving DecidableEq

/-- A verification `transaction` dictionary as consumed by
`SimpleFraudDetector`. -/
structure Transaction where
  txid : Option Str
  phone : Option Str
  name : Option Str
  amount : Option ℚ
  payment_data : Option PaymentData
deriving DecidableEq

/-- Embeds `SimpleFraudDetector.is_suspicious_timing`
(src/ml_models/fraud_detector_clean.py lines 153-170); parse failures are
swallowed (`except: pass` → `false`). -/
def is_suspicious_timing (t : Transaction) : Bool :=
  match t.payment_data with
  | none => false
  | some pd =>
    match pd.timestamp with
    | none => false
    | some ts =>
      if ts = [] then false
      else
        match fromisoformat (replaceZ ts) with
        | none => false
        | some dt => decide (dt.hour < 5) || decide (23 < dt.hour)

/-- Embeds `SimpleFraudDetector.is_recent_transaction`
(src/ml_models/fraud_detector_clean.py lines 172-181); `now` is the threaded
`datetime.now()`. Subtracting an aware datetime from the naive `now` raises
`TypeError`, which the bare `except` turns into `false`. -/
def is_recent_transaction (now : PyDateTime) (tx : HistEntry) (hours : Nat) : Bool :=
  match tx.created_at with
  | none => false
  | some s =>
    match fromisoformat (replaceZ s) with
    | none => false
    | some dt =>
      match dt.tzsec with
      | some _ => false
      | none => decide ((toSeconds now - toSeconds dt) / 3600 ≤ (hours : ℚ))

/-- Embeds `SimpleFraudDetector.behavioral_analysis`
(src/ml_models/fraud_detector_clean.py lines 101-124). -/
def behavioral_analysis (t : Transaction) (history : List HistEntry)
    (now : PyDateTime) : ℚ :=
  if history = [] then 3/10
  else
    let recent := history.filter (fun tx => is_recent_transaction now tx 24)
    let velocity : ℚ :=
      if 10 < recent.length then 3/10
      else if 5 < recent.length then 2/10
      else 0
    let txids := history.map (fun tx => tx.txid.getD [])
    let dup : ℚ :=
      match t.txid with
      | none => 0
      | some s => if s ∈ txids then 4/10 else 0
    min (velocity + dup) 1

/-- Embeds `SimpleFraudDetector.rule_based_checks`
(src/ml_models/fraud_detector_clean.py lines 63-99); returns the violation
tags in firing order and the clamped rule score. -/
def rule_based_checks (t : Transaction) : List String × ℚ :=
  let pdTxid := t.payment_data.bind PaymentData.txid
  let c1 : Bool := decide (t.txid ≠ pdTxid)
  let c2 : Bool :=
    decide (normalize_phone (t.phone.getD []) ≠
      normalize_phone ((t.payment_data.bind PaymentData.sender_number).getD []))
  let c3 : Bool :=
    t.amount.isSome && t.payment_data.isSome &&
      decide (1000 < |t.amount.getD 0 - (t.payment_data.bind PaymentData.amount).getD 0|)
  let c4 : Bool := is_suspicious_txid (t.txid.getD [])
  let c5 : Bool := is_suspicious_timing t
  let viol :=
    (if c1 then ["txid_mismatch"] else []) ++
    (if c2 then ["phone_mismatch"] else []) ++
    (if c3 then ["amount_mismatch"] else []) ++
    (if c4 then ["suspicious_txid_pattern"] else []) ++
    (if c5 then ["suspicious_timing"] else [])
  let score : ℚ :=
    (if c1 then 4/10 else 0) + (if c2 then 3/10 else 0) + (if c3 then 5/10 else 0) +
      (if c4 then 3/10 else 0) + (if c5 then 2/10 else 0)
  (viol, min score 1)

/-- The risk-level if-chain inside `SimpleFraudDetector.detect_fraud`
(src/ml_models/fraud_detector_clean.py lines 38-46). -/
def risk_level_of (s : ℚ) : String :=
  if 8/10 ≤ s then "HIGH"
  else if 6/10 ≤ s then "MEDIUM"
  else if 4/10 ≤ s then "LOW"
  else "MINIMAL"

/-- Embeds `SimpleFraudDetector.get_recommendation`
(src/ml_models/fraud_detector_clean.py lines 183-192); the `score` argument is
accepted but never read, exactly as in the source. -/
def get_recommendation (_score : ℚ) (level : String) : String :=
  if level = "HIGH" then "REJECT - High fraud risk. Manual review required."
  else if level = "MEDIUM" then "REVIEW - Medium fraud risk. Additional verification recommended."
  else if level = "LOW" then "APPROVE - Low fraud risk. Transaction appears legitimate."
  else "APPROVE - Minimal fraud risk. Safe to process."

/-- Result dictionary of `SimpleFraudDetector.detect_fraud` (the `details`
sub-dictionary repeats fields already present and is omitted). -/
structure FraudResult where
  fraud_score : ℚ
  risk_level : String
  rule_violations : List String
  behavioral_score : ℚ
  recommendation : String
deriving DecidableEq

/-- Embeds `SimpleFraudDetector.detect_fraud`
(src/ml_models/fraud_detector_clean.py lines 27-61); `payment_history or []`
is modelled by the caller passing `[]` for an absent history. -/
def detect_fraud (t : Transaction) (history : List HistEntry)
    (now : PyDateTime) : FraudResult :=
  let rules := rule_based_checks t
  let behavioral := behavioral_analysis t history now
  let final := rules.2 * (7/10) + behavioral * (3/10)
  { fraud_score := final
    risk_level := risk_level_of final
    rule_violations := rules.1
    behavioral_score := behavioral
    recommendation := get_recommendation final (risk_level_of final) }

end CleanDetector

namespace FraudDetector

/-- The denylist `suspicious_patterns` of `FraudDetector`
(src/ml_models/fraud_detector.py lines 15-17). -/
def suspicious_patterns : List Str :=
  [strOf "test", strOf "fake", strOf "fraud", strOf "scam", strOf "dummy"]

/-- The alternatives of `^(123|ABC|TEST|FAKE)` with `re.IGNORECASE`
(matched against the lowered string). -/
def fakeHeads : List Str := [strOf "123", strOf "abc", strOf "test", strOf "fake"]

/-- Embeds `FraudDetector.is_suspicious_txid`
(src/ml_models/fraud_detector.py lines 70-88). -/
def is_suspicious_txid (txid : Str) : Bool :=
  if txid = [] ∨ txid.length < 6 then true
  else if suspicious_patterns.any (fun pat => hasSub pat (lowerStr txid)) then true
  else if txid.dedup.length < 3 then true
  else if fakeHeads.any (fun pat => startsW pat (lowerStr txid)) then true
  else false

/-- Scan for `user\d+`: an occurrence of `user` followed by a digit. -/
def hasUserNum : Str → Bool
  | [] => false
  | c :: cs =>
    (startsW (strOf "user") (c :: cs) && (((c :: cs).drop 4).headD ' ').isDigit) ||
      hasUserNum cs

/-- Embeds `FraudDetector.is_suspicious_name`
(src/ml_models/fraud_detector.py lines 90-106). -/
def is_suspicious_name (name : Str) : Bool :=
  if name = [] then false
  else if suspicious_patterns.any (fun pat => hasSub pat (lowerStr name)) then true
  else if startsW (strOf "test") (lowerStr name) ∨ startsW (strOf "fake") (lowerStr name) ∨
          startsW (strOf "dummy") (lowerStr name) ∨ hasSub (strOf "admin") (lowerStr name) ∨
          hasUserNum (lowerStr name) then true
  else false

/-- Rwandan mobile operator codes checked by `is_valid_phone`. -/
def opCodes : List Str := [strOf "78", strOf "79", strOf "72", strOf "73"]

/-- Embeds `FraudDetector.is_valid_phone`
(src/ml_models/fraud_detector.py lines 108-124). Note that for a `250...`
number the source compares the 3-character slice `digits[3:6]` against the
2-character operator codes, which can never succeed; the slice is embedded
as written. -/
def is_valid_phone (phone : Str) : Bool :=
  if phone = [] then false
  else
    let d := digitsOf phone
    if startsW (strOf "250") d then d.length = 12 ∧ pySlice d 3 6 ∈ opCodes
    else if startsW (strOf "0") d then d.length = 10 ∧ pySlice d 1 3 ∈ opCodes
    else if d.length = 9 then pySlice d 0 2 ∈ opCodes
    else false

/-- A `transaction_data` dictionary as consumed by `FraudDetector`. -/
structure TransactionData where
  txid : Option Str
  phone : Option Str
  name : Option Str
  amount : Option ℚ
deriving DecidableEq

/-- Embeds `FraudDetector.check_duplicate_risk`
(src/ml_models/fraud_detector.py lines 126-141): the md5 fingerprint is
computed but never consulted; the function only flags a txid shorter than 8
characters. -/
def check_duplicate_risk (td : TransactionData) : Bool :=
  (td.txid.getD []).length < 8

/-- Embeds `FraudDetector.check_time_anomaly`
(src/ml_models/fraud_detector.py lines 143-147), a placeholder returning
`False`. -/
def check_time_anomaly (_td : TransactionData) : Bool := false

/-- Embeds `FraudDetector.calculate_risk_score`
(src/ml_models/fraud_detector.py lines 23-68): the clamped risk score and the
risk factors in firing order. -/
def calculate_risk_score (td : TransactionData) : ℚ × List String :=
  let amount := td.amount.getD 0
  let cHigh : Bool := decide (500000 < amount)
  let cInv : Bool := !cHigh && decide (amount ≤ 0)
  let txu := upperStr (td.txid.getD [])
  let cTx : Bool := is_suspicious_txid txu
  let cName : Bool := is_suspicious_name (lowerStr (td.name.getD []))
  let cPhone : Bool := !is_valid_phone (td.phone.getD [])
  let cDup : Bool := check_duplicate_risk td
  let cTime : Bool := check_time_anomaly td
  let score : ℚ :=
    (if cHigh then 3/10 else 0) + (if cInv then 5/10 else 0) + (if cTx then 4/10 else 0) +
      (if cName then 2/10 else 0) + (if cPhone then 2/10 else 0) +
      (if cDup then 6/10 else 0) + (if cTime then 3/10 else 0)
  let factors :=
    (if cHigh then ["high_amount"] else []) ++ (if cInv then ["invalid_amount"] else []) ++
    (if cTx then ["suspicious_txid"] else []) ++ (if cName then ["suspicious_name"] else []) ++
    (if cPhone then ["invalid_phone"] else []) ++ (if cDup then ["duplicate_submission"] else []) ++
    (if cTime then ["time_anomaly"] else [])
  (min score 1, factors)

/-- Result of `FraudDetector.detect_fraud` (the wall-clock `timestamp` field
of the source dictionary carries no pipeline information and is omitted). -/
structure LegacyResult where
  risk_score : ℚ
  risk_level : String
  risk_factors : List String
  recommended_action : String
deriving DecidableEq

/-- The risk-level/action if-chain of the legacy `detect_fraud`
(src/ml_models/fraud_detector.py lines 155-167). -/
def risk_level_of (s : ℚ) : String × String :=
  if 8/10 ≤ s then ("HIGH", "block")
  else if 5/10 ≤ s then ("MEDIUM", "review")
  else if 3/10 ≤ s then ("LOW", "flag")
  else ("MINIMAL", "approve")

/-- Embeds `FraudDetector.detect_fraud`
(src/ml_models/fraud_detector.py lines 149-175). -/
def detect_fraud (td : TransactionData) : LegacyResult :=
  let rs := calculate_risk_score td
  let la := risk_level_of rs.1
  { risk_score := rs.1, risk_level := la.1, risk_factors := rs.2, recommended_action := la.2 }

end FraudDetector

namespace Matcher

/-- Inner loop of `levenshtein_distance` (src/ml_models/matcher.py lines 11-18):
given the previous Wagner–Fischer row (`p0 :: p1 :: ps`) and the last entry of
the row under construction, produce the remaining entries of the current row.
The wildcard branches are unreachable because the previous row is always one
longer than the remaining second string. -/
def levRowAux (c1 : Char) : Str → List Nat → Nat → List Nat
  | c2 :: bs, p0 :: p1 :: ps, curLast =>
    let ins := p1 + 1
    let dels := curLast + 1
    let subs := p0 + (if c1 = c2 then 0 else 1)
    let m := min ins (min dels subs)
    m :: levRowAux c1 bs (p1 :: ps) m
  | _, _, _ => []

/-- Outer loop of `levenshtein_distance`: fold each character of the first
string over the rows; `i` is the number of rows already produced. -/
def levLoop (b : Str) : Str → Nat → List Nat → List Nat
  | [], _, prevRow => prevRow
  | c1 :: as, i, prevRow => levLoop b as (i + 1) ((i + 1) :: levRowAux c1 b prevRow (i + 1))

/-- The Wagner–Fischer dynamic program of `levenshtein_distance`
(src/ml_models/matcher.py lines 4-19) after the initial swap:
`previous_row = range(len(b)+1)`, then one row per character of `a`, with the
answer `previous_row[-1]`. -/
def levCore (a b : Str) : Nat :=
  let final := levLoop b a 0 (List.range (b.length + 1))
  final.getD (final.length - 1) 0

/-- Embeds `levenshtein_distance` (src/ml_models/matcher.py lines 4-19),
including the initial swap putting the longer string first. -/
def levenshtein_distance (a b : Str) : Nat :=
  if a.length < b.length then levCore b a else levCore a b

/-- A stored payment record as read by `match_transaction`
(fields accessed through `payment.get(...)`). -/
structure Payment where
  txid : Option Str
  sender_number : Option Str
  amount : Option ℚ
  timestamp : Option Str
deriving DecidableEq

/-- One entry of the `suggestions` list built by `match_transaction`. -/
structure Suggestion where
  txid : Option Str
  amount : Option ℚ
  timestamp : Option Str
  confidence : ℚ
deriving DecidableEq

/-- The dictionary returned by `match_transaction`. -/
structure MatchResult where
  payment : Option Payment
  confidence : ℚ
  suggestions : List Suggestion
deriving DecidableEq

/-- The per-candidate similarity computation of `match_transaction`
(src/ml_models/matcher.py lines 53-65), in exact rational arithmetic.
`cphone` is the already-cleaned customer phone (cleaned once before the
loop); the candidate's phone is cleaned here. `if customer_amount:` is
Python truthiness, so a supplied amount of `0` falls into the neutral
branch. -/
def combinedScore (ctxid cphone : Str) (camount : Option ℚ) (p : Payment) : ℚ :=
  let ptxid := p.txid.getD []
  let txid_sim : ℚ :=
    1 - (levenshtein_distance (lowerStr ctxid) (lowerStr ptxid) : ℚ) /
      ((max ctxid.length (max ptxid.length 1) : Nat) : ℚ)
  let pphone := cleanPhoneM (p.sender_number.getD [])
  let phone_sim : ℚ := if cphone = pphone then 1 else 0
  let amount_sim : ℚ :=
    match camount with
    | some ca =>
      if ca = 0 then 1/2
      else 1 - |ca - p.amount.getD 0| / max ca (max (p.amount.getD 1) 1)
    | none => 1/2
  txid_sim * (6/10) + phone_sim * (3/10) + amount_sim * (1/10)

/-- One iteration of the candidate loop of `match_transaction`
(src/ml_models/matcher.py lines 45-79): update the best match/score and
collect a suggestion when the combined score exceeds `0.5`. -/
def matchStep (ctxid cphone : Str) (camount : Option ℚ)
    (acc : Option Payment × ℚ × List Suggestion) (p : Payment) :
    Option Payment × ℚ × List Suggestion :=
  let cs := combinedScore ctxid cphone camount p
  ((if acc.2.1 < cs then some p else acc.1),
   (if acc.2.1 < cs then cs else acc.2.1),
   (if (1 : ℚ)/2 < cs then acc.2.2 ++ [⟨p.txid, p.amount, p.timestamp, cs⟩] else acc.2.2))

/-- Insert into a descending-by-confidence list, after existing entries of
equal confidence. -/
def insertDesc (x : Suggestion) : List Suggestion → List Suggestion
  | [] => [x]
  | y :: ys => if y.confidence < x.confidence then x :: y :: ys else y :: insertDesc x ys

/-- Stable descending sort by confidence; Python
`sorted(suggestions, key=lambda x: x['confidence'], reverse=True)` is also
stable, so both produce the same list. -/
def sortDesc (l : List Suggestion) : List Suggestion :=
  l.foldl (fun acc x => insertDesc x acc) []

/-- Embeds `match_transaction` (src/ml_models/matcher.py lines 32-85). -/
def match_transaction (customer_txid customer_phone : Str) (customer_amount : Option ℚ)
    (all_payments : List Payment) : MatchResult :=
  let cphone := cleanPhoneM customer_phone
  let fin := all_payments.foldl (matchStep customer_txid cphone customer_amount)
    (none, -1, [])
  { payment := fin.1, confidence := fin.2.1, suggestions := (sortDesc fin.2.2).take 3 }

end Matcher

namespace F64

/-- Floor of the base-2 logarithm, fuel-based so that it reduces in the
kernel (`fuel ≥ n` suffices). -/
def nlog2 : Nat → Nat → Nat
  | 0, _ => 0
  | fuel + 1, n => if n < 2 then 0 else nlog2 fuel (n / 2) + 1

/-- Floor of the base-2 logarithm of the positive rational `a / b`. -/
def flog2Q (a b : Nat) : Int :=
  let l : Int := (nlog2 a a : Int) - (nlog2 b b : Int)
  if b * 2 ^ l.toNat ≤ a * 2 ^ (-l).toNat then l else l - 1

/-- Round the positive rational `a / b` to 53 significant bits with
round-to-nearest, ties to even; the result is `m * 2 ^ e` with
`2^52 ≤ m ≤ 2^53`. This is IEEE-754 binary64 rounding in the normal range
(the pipeline's values never approach overflow or subnormals). -/
def roundQuot (a b : Nat) : Nat × Int :=
  let s : Int := flog2Q a b - 52
  let num := a * 2 ^ (-s).toNat
  let den := b * 2 ^ s.toNat
  let q0 := num / den
  let r := num % den
  let q := if 2 * r < den then q0
    else if den < 2 * r then q0 + 1
    else if q0 % 2 = 0 then q0 else q0 + 1
  (q, s)

/-- A binary64 value `m * 2 ^ e` (not necessarily normalized). -/
structure F where
  m : Int
  e : Int
deriving DecidableEq

/-- Round `m * 2 ^ e` to a representable binary64 value. -/
def fnorm (m : Int) (e : Int) : F :=
  if m = 0 then ⟨0, 0⟩
  else if 0 < m then
    let qs := roundQuot m.toNat 1
    ⟨(qs.1 : Int), qs.2 + e⟩
  else
    let qs := roundQuot (-m).toNat 1
    ⟨-(qs.1 : Int), qs.2 + e⟩

/-- Binary64 addition: exact alignment then rounding. -/
def fadd (x y : F) : F :=
  if x.m = 0 then fnorm y.m y.e
  else if y.m = 0 then fnorm x.m x.e
  else if y.e ≤ x.e then fnorm (x.m * 2 ^ (x.e - y.e).toNat + y.m) y.e
  else fnorm (x.m + y.m * 2 ^ (y.e - x.e).toNat) x.e

/-- Binary64 negation (exact). -/
def fneg (x : F) : F := ⟨-x.m, x.e⟩

/-- Binary64 subtraction. -/
def fsub (x y : F) : F := fadd x (fneg y)

/-- Binary64 multiplication: exact product then rounding. -/
def fmul (x y : F) : F := fnorm (x.m * y.m) (x.e + y.e)

/-- Binary64 division: round the exact quotient (defined for a nonzero
divisor; sign handled through absolute values). -/
def fdiv (x y : F) : F :=
  if x.m = 0 ∨ y.m = 0 then ⟨0, 0⟩
  else
    let qs := roundQuot x.m.natAbs y.m.natAbs
    if (0 < x.m) = (0 < y.m) then ⟨(qs.1 : Int), qs.2 + x.e - y.e⟩
    else ⟨-(qs.1 : Int), qs.2 + x.e - y.e⟩

/-- Binary64 absolute value (exact). -/
def fabs (x : F) : F := ⟨|x.m|, x.e⟩

/-- Python `max` on floats (comparison of exact values). -/
def fmax (x y : F) : F := if (x.m : ℚ) * 2 ^ x.e ≤ (y.m : ℚ) * 2 ^ y.e then y else x

/-- The binary64 value of a decimal literal or int `a / b`. -/
def fofRat (a b : Nat) : F := if a = 0 then ⟨0, 0⟩ else ⟨(roundQuot a b).1, (roundQuot a b).2⟩

/-- The binary64 value of a natural number. -/
def fofNat (n : Nat) : F := fofRat n 1

/-- The exact rational value of a binary64 value. -/
def fval (x : F) : ℚ := (x.m : ℚ) * 2 ^ x.e

/-- The per-candidate combined score of `match_transaction`
(src/ml_models/matcher.py lines 53-65) evaluated in IEEE binary64 arithmetic,
with Python's left-to-right association
`(txid_sim * 0.6) + (phone_sim * 0.3) + (amount_sim * 0.1)`. Payment and
claim amounts are binary64 values (`float(...)` in the source). -/
def combinedScoreF64 (ctxid cphone : Str) (camount : Option F) (ptxid pphoneRaw : Str)
    (pamount : Option F) : F :=
  let dist := Matcher.levenshtein_distance (lowerStr ctxid) (lowerStr ptxid)
  let txid_sim : F :=
    fsub (fofNat 1) (fdiv (fofNat dist) (fofNat (max ctxid.length (max ptxid.length 1))))
  let phone_sim : F :=
    if Matcher.cleanPhoneM cphone = Matcher.cleanPhoneM pphoneRaw then fofNat 1 else fofNat 0
  let amount_sim : F :=
    match camount with
    | some ca =>
      if ca.m = 0 then fofRat 1 2
      else
        let pa := pamount.getD (fofNat 0)
        let diff := fabs (fsub ca pa)
        fsub (fofNat 1) (fdiv diff (fmax ca (fmax (pamount.getD (fofNat 1)) (fofNat 1))))
    | none => fofRat 1 2
  fadd (fadd (fmul txid_sim (fofRat 6 10)) (fmul phone_sim (fofRat 3 10)))
    (fmul amount_sim (fofRat 1 10))

end F64

namespace RE

/-- Regular-expression syntax used by the parsers' patterns. `rep lo ext a`
is the bounded greedy repetition `a{lo, lo+ext}`; `star`/`starL` are greedy
and lazy `*`; `wb` is the word boundary `\b`. -/
inductive Re where
  | eps
  | cls (p : Char → Bool)
  | lit (s : Str)
  | litCI (s : Str)
  | seq (a b : Re)
  | alt (a b : Re)
  | star (a : Re)
  | starL (a : Re)
  | opt (a : Re)
  | rep (lo ext : Nat) (a : Re)
  | grp (i : Nat) (a : Re)
  | wb

/-- Captured groups, most recent first. -/
abbrev Caps := List (Nat × Str)

/-- Word characters for `\b` and `\w`. -/
def isWordC (c : Char) : Bool := c.isAlphanum || c = '_'

/-- Consume a literal (case-insensitively when `ci`), tracking the previous
character for `\b`. -/
def eatLit (ci : Bool) : Str → Option Char → Str → Option (Option Char × Str)
  | [], pr, s => some (pr, s)
  | c :: cs, pr, s =>
    match s with
    | [] => none
    | d :: ds =>
      if (if ci then c.toLower = d.toLower else c = d) then eatLit ci cs (some d) ds
      else none

/-- Backtracking matcher in continuation-passing style, with Python `re`
preference order: alternation tries the left branch first, `star`/`opt`/`rep`
prefer longer matches, `starL` prefers shorter ones. `pr` is the previously
consumed character (for `\\b`). The fuel decreases at every node, making the
definition structurally recursive (so it evaluates inside the kernel);
callers supply fuel ample for the whole search, and star iterations that
consume no input are cut off, as in `re`. -/
def mtch {ρ : Type} : Nat → Re → Option Char → Str → Caps →
    (Option Char → Str → Caps → Option ρ) → Option ρ
  | 0, _, _, _, _, _ => none
  | f + 1, re, pr, s, cp, k =>
    match re with
    | .eps => k pr s cp
    | .cls p =>
      match s with
      | [] => none
      | c :: cs => if p c then k (some c) cs cp else none
    | .lit l =>
      match eatLit false l pr s with
      | none => none
      | some (pr1, s1) => k pr1 s1 cp
    | .litCI l =>
      match eatLit true l pr s with
      | none => none
      | some (pr1, s1) => k pr1 s1 cp
    | .seq a b => mtch f a pr s cp (fun pr1 s1 cp1 => mtch f b pr1 s1 cp1 k)
    | .alt a b =>
      match mtch f a pr s cp k with
      | some r => some r
      | none => mtch f b pr s cp k
    | .opt a =>
      match mtch f a pr s cp k with
      | some r => some r
      | none => k pr s cp
    | .star a =>
      match mtch f a pr s cp
          (fun pr1 s1 cp1 =>
            if s1.length < s.length then mtch f (.star a) pr1 s1 cp1 k else none) with
      | some r => some r
      | none => k pr s cp
    | .starL a =>
      match k pr s cp with
      | some r => some r
      | none =>
        mtch f a pr s cp
          (fun pr1 s1 cp1 =>
            if s1.length < s.length then mtch f (.starL a) pr1 s1 cp1 k else none)
    | .rep 0 0 _ => k pr s cp
    | .rep 0 (ext + 1) a =>
      match mtch f a pr s cp (fun pr1 s1 cp1 => mtch f (.rep 0 ext a) pr1 s1 cp1 k) with
      | some r => some r
      | none => k pr s cp
    | .rep (lo + 1) ext a =>
      mtch f a pr s cp (fun pr1 s1 cp1 => mtch f (.rep lo ext a) pr1 s1 cp1 k)
    | .grp i a =>
      mtch f a pr s cp
        (fun pr1 s1 cp1 => k pr1 s1 ((i, s.take (s.length - s1.length)) :: cp1))
    | .wb =>
      let before := match pr with | none => false | some c => isWordC c
      let after := match s with | [] => false | c :: _ => isWordC c
      if before ≠ after then k pr s cp else none

/-- Syntactic size of a pattern, used to compute an ample fuel. -/
def rSize : Re → Nat
  | .eps => 1
  | .cls _ => 1
  | .lit l => l.length + 1
  | .litCI l => l.length + 1
  | .seq a b => rSize a + rSize b + 1
  | .alt a b => rSize a + rSize b + 1
  | .star a => rSize a + 1
  | .starL a => rSize a + 1
  | .opt a => rSize a + 1
  | .rep lo ext a => (lo + ext + 1) * (rSize a + 1) + 1
  | .grp _ a => rSize a + 1
  | .wb => 1

/-- Ample fuel for matching `r` against `s`: fuel is consumed once per node
entered, and each star iteration consumes input. -/
def fuelFor (r : Re) (s : Str) : Nat := (s.length + 2) * (rSize r + 2)

/-- First (preference-ordered) match of `r` at the leftmost feasible start
position of `s`, as `re.search`: the captures, the previous character at the
match end, and the rest of the input after the match. -/
def searchGo : Nat → Re → Option Char → Str → Option (Caps × Option Char × Str)
  | 0, _, _, _ => none
  | fuel + 1, r, pr, s =>
    match mtch (fuelFor r s) r pr s [] (fun pr1 s1 cp => some (cp, pr1, s1)) with
    | some res => some res
    | none =>
      match s with
      | [] => none
      | c :: cs => searchGo fuel r (some c) cs

/-- `re.search(r, s)` returning the capture list. -/
def reSearch (r : Re) (s : Str) : Option Caps :=
  (searchGo (s.length + 1) r none s).map (fun x => x.1)

/-- Group `i` of a capture list (`none` when the group did not participate). -/
def groupN (cp : Caps) (i : Nat) : Option Str :=
  (cp.find? (fun p => p.1 = i)).map (fun p => p.2)

/-- `re.findall(r, s)` for a pattern with one capturing group: the list of
group-1 texts of the non-overlapping matches, left to right. -/
def findAllGo : Nat → Re → Option Char → Str → List Str
  | 0, _, _, _ => []
  | fuel + 1, r, pr, s =>
    match mtch (fuelFor r s) r pr s [] (fun pr1 s1 cp => some (cp, pr1, s1)) with
    | some (cp, pr1, s1) =>
      let g := (groupN cp 1).getD []
      if s1.length < s.length then g :: findAllGo fuel r pr1 s1
      else
        match s with
        | [] => [g]
        | c :: cs => g :: findAllGo fuel r (some c) cs
    | none =>
      match s with
      | [] => []
      | c :: cs => findAllGo fuel r (some c) cs

/-- `re.findall(r, s)`. -/
def reFindAll (r : Re) (s : Str) : List Str := findAllGo (s.length + 1) r none s

/-- Sequence a list of regexes. -/
def cat (l : List Re) : Re := l.foldr Re.seq Re.eps

/-- Alternation over a list (first alternative preferred). -/
def altL : List Re → Re
  | [] => Re.cls (fun _ => false)
  | [r] => r
  | r :: rs => Re.alt r (altL rs)

/-- One or more repetitions, greedy (`+`). -/
def plus (a : Re) : Re := Re.seq a (Re.star a)

/-- Bounded repetition `a{lo,hi}`, greedy. -/
def rng (lo hi : Nat) (a : Re) : Re := Re.rep lo (hi - lo) a

/-- Character class `\d`. -/
def dQ : Re := Re.cls Char.isDigit

/-- Character class `\s` (ASCII range). -/
def sQ : Re := Re.cls pySpace

/-- Character class `\w`. -/
def wQ : Re := Re.cls isWordC

/-- Character class `[A-Z0-9]` under `re.IGNORECASE`. -/
def anQ : Re := Re.cls Char.isAlphanum

/-- Character class `[^0-9]`. -/
def noDigQ : Re := Re.cls (fun c => !c.isDigit)

/-- `.` under `re.DOTALL`. -/
def anyQ : Re := Re.cls (fun _ => true)

/-- Character class `[:.]`. -/
def colonDotQ : Re := Re.cls (fun c => c = ':' || c = '.')

end RE

namespace SmsParser
open RE

/-- The `mtn_payment` txid patterns (src/ml_models/sms_parser.py lines 20-26),
searched with `re.IGNORECASE`. -/
def txidPatterns : List Re :=
  [cat [Re.litCI (strOf "transaction id:"), Re.star sQ, Re.grp 1 (plus anQ)],
   cat [Re.litCI (strOf "ref."), Re.star sQ, Re.grp 1 (plus anQ)],
   cat [Re.litCI (strOf "reference:"), Re.star sQ, Re.grp 1 (plus anQ)],
   cat [Re.litCI (strOf "txnid:"), Re.star sQ, Re.grp 1 (plus anQ)],
   cat [altL [Re.litCI (strOf "ref"), Re.litCI (strOf "reference"), Re.litCI (strOf "no")],
        Re.opt sQ, Re.opt colonDotQ, Re.opt sQ, Re.grp 1 (rng 6 15 anQ)]]

/-- `[\d,]`. -/
def digCommaQ : Re := Re.cls (fun c => c.isDigit || c = ',')

/-- The sub-pattern `\d+(?:,\d{3})*`. -/
def groupedInt : Re := cat [plus dQ, Re.star (cat [Re.lit (strOf ","), rng 3 3 dQ])]

/-- The `amount` patterns (src/ml_models/sms_parser.py lines 27-35),
searched with `re.IGNORECASE`. -/
def amountPatterns : List Re :=
  [cat [Re.litCI (strOf "rwf"), Re.star sQ,
        Re.grp 1 (cat [plus digCommaQ, Re.opt (Re.lit (strOf ".")), Re.star dQ])],
   cat [Re.grp 1 (cat [rng 1 3 dQ, Re.star (cat [Re.lit (strOf ","), rng 3 3 dQ]),
                       Re.opt (cat [Re.lit (strOf "."), rng 2 2 dQ])]),
        Re.star sQ, Re.litCI (strOf "rwf")],
   cat [Re.litCI (strOf "amount:"), Re.star sQ, Re.litCI (strOf "rwf"), Re.star sQ,
        Re.grp 1 (cat [plus digCommaQ, Re.opt (Re.lit (strOf ".")), Re.star dQ])],
   cat [Re.grp 1 groupedInt, Re.star sQ, Re.litCI (strOf "rwf")],
   cat [Re.litCI (strOf "received"), plus sQ, Re.opt (cat [Re.litCI (strOf "rwf"), Re.star sQ]),
        Re.grp 1 groupedInt],
   cat [Re.litCI (strOf "recu"), plus sQ, Re.opt (cat [Re.litCI (strOf "rwf"), Re.star sQ]),
        Re.grp 1 groupedInt],
   cat [Re.litCI (strOf "wakiriye"), plus sQ, Re.opt (cat [Re.litCI (strOf "rwf"), Re.star sQ]),
        Re.grp 1 groupedInt]]

/-- The sub-pattern `\+?250\d{9}`. -/
def intlPhone : Re := cat [Re.opt (Re.lit (strOf "+")), Re.lit (strOf "250"), rng 9 9 dQ]

/-- The `phone` patterns (src/ml_models/sms_parser.py lines 36-44). -/
def phonePatterns : List Re :=
  [Re.grp 1 intlPhone,
   Re.grp 1 (cat [Re.lit (strOf "0"), rng 9 9 dQ]),
   Re.grp 1 (rng 9 9 dQ),
   cat [Re.litCI (strOf "to"), Re.star sQ, Re.grp 1 intlPhone],
   cat [Re.litCI (strOf "from"), Re.star sQ, Re.grp 1 intlPhone],
   cat [Re.litCI (strOf "kuva"), Re.star sQ, Re.grp 1 intlPhone],
   cat [Re.litCI (strOf "de"), Re.star sQ, Re.grp 1 intlPhone]]

/-- `[A-Za-z\s]`. -/
def alphaSpaceQ : Re := Re.cls (fun c => c.isAlpha || pySpace c)

/-- `[A-Z]`/`[a-z]` under `re.IGNORECASE` collapse to any ASCII letter. -/
def alphaQ : Re := Re.cls Char.isAlpha

/-- The `name` patterns (src/ml_models/sms_parser.py lines 45-51),
searched with `re.IGNORECASE`. -/
def namePatterns : List Re :=
  [cat [Re.litCI (strOf "from"), plus sQ, Re.grp 1 (plus alphaSpaceQ), plus sQ,
        Re.alt (Re.lit (strOf "(")) (Re.lit (strOf "+"))],
   cat [Re.litCI (strOf "kuva"), plus sQ, Re.grp 1 (plus alphaSpaceQ), plus sQ,
        Re.alt (Re.lit (strOf "(")) (Re.lit (strOf "+"))],
   cat [Re.litCI (strOf "de"), plus sQ, Re.grp 1 (plus alphaSpaceQ), plus sQ,
        Re.alt (Re.lit (strOf "(")) (Re.lit (strOf "+"))],
   cat [Re.litCI (strOf "name:"), Re.star sQ, Re.grp 1 (plus alphaSpaceQ)],
   Re.grp 1 (cat [alphaQ, plus alphaQ, plus sQ, alphaQ, plus alphaQ])]

/-- Decimal shapes accepted by Python `float()` as produced by the amount
groups after comma/space removal: `ddd`, `ddd.`, `.ddd`, `ddd.ddd`
(sign/exponent/inf forms are not producible here). -/
def parseFloatQ (s : Str) : Option ℚ :=
  let ip := s.takeWhile Char.isDigit
  let rest := s.drop ip.length
  match rest with
  | [] => if ip = [] then none else some (natOfDigits ip : ℚ)
  | '.' :: fp =>
    if fp.all Char.isDigit ∧ (ip ≠ [] ∨ fp ≠ []) then
      some ((natOfDigits ip : ℚ) + (natOfDigits fp : ℚ) / 10 ^ fp.length)
    else none
  | _ => none

/-- Embeds `SMSParser.clean_amount` (src/ml_models/sms_parser.py lines 54-64):
remove commas and whitespace, then `float(...)` with `ValueError ↦ none`. -/
def clean_amount (s : Str) : Option ℚ :=
  if s = [] then none
  else parseFloatQ (s.filter (fun c => !(c = ',' || pySpace c)))

/-- Replace each whitespace run by a single space (`re.sub(r'\s+', ' ', s)`);
the flag records whether the previous character was whitespace. -/
def collapseWsGo : Str → Bool → Str
  | [], _ => []
  | c :: cs, inSp =>
    if pySpace c then
      (if inSp then collapseWsGo cs true else ' ' :: collapseWsGo cs true)
    else c :: collapseWsGo cs false

/-- Embeds `SMSParser.clean_name` (src/ml_models/sms_parser.py lines 84-94);
the `unidecode` fallback is the identity, as when the library is absent. -/
def clean_name (name : Str) : Option Str :=
  if name = [] then none
  else
    let cleaned := collapseWsGo (stripStr name) false
    if 2 < cleaned.length then some cleaned else none

/-- Embeds `SMSParser.extract_txid` (src/ml_models/sms_parser.py lines
96-104): first pattern whose stripped group has length at least 6 wins,
upper-cased. -/
def extract_txid_go : List Re → Str → Option Str
  | [], _ => none
  | r :: rs, text =>
    match reSearch r text with
    | some cp =>
      let txid := stripStr ((groupN cp 1).getD [])
      if 6 ≤ txid.length then some (upperStr txid) else extract_txid_go rs text
    | none => extract_txid_go rs text

def extract_txid (text : Str) : Option Str := extract_txid_go txidPatterns text

/-- Embeds `SMSParser.extract_amount` (src/ml_models/sms_parser.py lines
106-114): first pattern whose cleaned group is a truthy positive float wins. -/
def extract_amount_go : List Re → Str → Option ℚ
  | [], _ => none
  | r :: rs, text =>
    match reSearch r text with
    | some cp =>
      match clean_amount ((groupN cp 1).getD []) with
      | some a => if a ≠ 0 ∧ 0 < a then some a else extract_amount_go rs text
      | none => extract_amount_go rs text
    | none => extract_amount_go rs text

def extract_amount (text : Str) : Option ℚ := extract_amount_go amountPatterns text

/-- Embeds `SMSParser.extract_phone` (src/ml_models/sms_parser.py lines
116-124). -/
def extract_phone_go : List Re → Str → Option Str
  | [], _ => none
  | r :: rs, text =>
    match reSearch r text with
    | some cp =>
      match clean_phone ((groupN cp 1).getD []) with
      | some p => if p ≠ [] then some p else extract_phone_go rs text
      | none => extract_phone_go rs text
    | none => extract_phone_go rs text

def extract_phone (text : Str) : Option Str := extract_phone_go phonePatterns text

/-- Embeds `SMSParser.extract_name` (src/ml_models/sms_parser.py lines
126-134). -/
def extract_name_go : List Re → Str → Option Str
  | [], _ => none
  | r :: rs, text =>
    match reSearch r text with
    | some cp =>
      match clean_name ((groupN cp 1).getD []) with
      | some n => if n ≠ [] then some n else extract_name_go rs text
      | none => extract_name_go rs text
    | none => extract_name_go rs text

def extract_name (text : Str) : Option Str := extract_name_go namePatterns text

/-- Embeds `SMSParser.calculate_confidence`
(src/ml_models/sms_parser.py lines 173-191), with Python truthiness spelled
out (`if txid` = nonempty, `if amount` = nonzero, `if phone` = a nonempty
string, not `None`). -/
def calculate_confidence (txid : Str) (amount : ℚ) (phone : Option Str)
    (name : Option Str) : ℚ :=
  let s1 : ℚ := if txid ≠ [] ∧ 8 ≤ txid.length then 4/10 else if txid ≠ [] then 2/10 else 0
  let s2 : ℚ := if amount ≠ 0 ∧ 0 < amount then 3/10 else 0
  let s3 : ℚ := match phone with | some p => if p ≠ [] then 2/10 else 0 | none => 0
  let s4 : ℚ :=
    match name with | some n => if n ≠ [] ∧ 2 < n.length then 1/10 else 0 | none => 0
  min (s1 + s2 + s3 + s4) 1

/-- The `payment_keywords` guard list (src/ml_models/sms_parser.py line 147). -/
def payment_keywords : List Str :=
  [strOf "transaction", strOf "payment", strOf "transfer", strOf "rwf",
   strOf "airtel money", strOf "mtn mobile money", strOf "tigo cash",
   strOf "received", strOf "recu", strOf "wakiriye"]

/-- The parsed-payment dictionary built by `SMSParser.parse_sms`; the
wall-clock `timestamp` field (`datetime.now().isoformat()`) carries no input
information and is omitted. -/
structure Parsed where
  txid : Str
  amount : ℚ
  phone : Option Str
  name : Option Str
  raw_text : Str
  confidence : ℚ
deriving DecidableEq

/-- Embeds `SMSParser.parse_sms` (src/ml_models/sms_parser.py lines 136-171):
empty-input guard, payment-keyword guard, extraction, and the
`if not txid or not amount: return None` validity guard. -/
def parse_sms (sms_text : Str) : Option Parsed :=
  if sms_text = [] then none
  else
    let text := stripStr sms_text
    if ¬ payment_keywords.any (fun kw => hasSub kw (lowerStr text)) then none
    else
      let txid := extract_txid text
      let amount := extract_amount text
      let phone := extract_phone text
      let name := extract_name text
      match txid, amount with
      | some tx, some am =>
        if tx = [] ∨ am = 0 then none
        else some ⟨tx, am, phone, name, sms_text,
          calculate_confidence tx am phone name⟩
      | _, _ => none

end SmsParser

namespace AdvancedSmsParser
open RE

/-- Embeds `AdvancedSMSParser._normalize_phone`
(src/ml_models/advanced_sms_parser.py lines 265-274), character-for-character
the same code as `SimpleFraudDetector.normalize_phone`. -/
def _normalize_phone (p : Str) : Str := CleanDetector.normalize_phone p

/-- Python `str.split()` with no argument: split on whitespace runs,
discarding empty pieces; `acc` is the word being accumulated. -/
def pySplitGo : Str → Str → List Str
  | [], acc => if acc = [] then [] else [acc]
  | c :: cs, acc =>
    if pySpace c then
      (if acc = [] then pySplitGo cs [] else acc :: pySplitGo cs [])
    else pySplitGo cs (acc ++ [c])

def pySplitWs (s : Str) : List Str := pySplitGo s []

/-- Python `str.title()` (ASCII): uppercase a letter after a non-letter,
lowercase the rest. -/
def pyTitleGo : Str → Bool → Str
  | [], _ => []
  | c :: cs, prevAlpha =>
    (if c.isAlpha ∧ ¬ prevAlpha then c.toUpper else c.toLower) :: pyTitleGo cs c.isAlpha

/-- The `noise_words` of `_clean_name`
(src/ml_models/advanced_sms_parser.py line 279). -/
def noise_words : List Str :=
  [strOf "from", strOf "to", strOf "mr", strOf "mrs", strOf "miss", strOf "dr"]

/-- Python `' '.join(words)`. -/
def joinSpace : List Str → Str
  | [] => []
  | [w] => w
  | w :: ws => w ++ ' ' :: joinSpace ws

/-- Embeds `AdvancedSMSParser._clean_name`
(src/ml_models/advanced_sms_parser.py lines 276-282): lower, split, drop
noise words and single letters, title-case, keep at most 3 words. -/
def _clean_name (name : Str) : Str :=
  let words := pySplitWs (lowerStr name)
  let cleaned := (words.filter (fun w => w ∉ noise_words ∧ 1 < w.length)).map
    (fun w => pyTitleGo w false)
  joinSpace (cleaned.take 3)

/-- `strptime` `%d`/`%m`/`%H`/`%M`/`%S`: one or two digits, greedy. -/
def p12 : Str → Option (Nat × Str)
  | a :: b :: r =>
    if a.isDigit then
      (if b.isDigit then some (10 * digToNat a + digToNat b, r)
       else some (digToNat a, b :: r))
    else none
  | [a] => if a.isDigit then some (digToNat a, []) else none
  | [] => none

/-- `strptime` `%Y`: one to four digits, greedy. -/
def pYear (s : Str) : Option (Nat × Str) :=
  let ds := (s.takeWhile Char.isDigit).take 4
  if ds = [] then none else some (natOfDigits ds, s.drop ds.length)

/-- Skip the whitespace run a literal space in a `strptime` format matches
(at least one character). -/
def pWs (s : Str) : Option Str :=
  let r := s.dropWhile pySpace
  if r.length < s.length then some r else none

/-- One `strptime` date-time format: the component order (day-first or
year-first), the date separator, and whether seconds are present. -/
def tryFormat (dayFirst : Bool) (sep : Char) (withSec : Bool) (s : Str) :
    Option CleanDetector.PyDateTime :=
  let dateP : Option ((Int × Nat × Nat) × Str) :=
    if dayFirst then
      match p12 s with
      | none => none
      | some (d, r1) =>
        match r1 with
        | c :: r2 =>
          if c = sep then
            match p12 r2 with
            | none => none
            | some (mo, r3) =>
              match r3 with
              | c2 :: r4 =>
                if c2 = sep then
                  match pYear r4 with
                  | none => none
                  | some (y, r5) => some (((y : Int), mo, d), r5)
                else none
              | [] => none
          else none
        | [] => none
    else
      match pYear s with
      | none => none
      | some (y, r1) =>
        match r1 with
        | c :: r2 =>
          if c = sep then
            match p12 r2 with
            | none => none
            | some (mo, r3) =>
              match r3 with
              | c2 :: r4 =>
                if c2 = sep then
                  match p12 r4 with
                  | none => none
                  | some (d, r5) => some (((y : Int), mo, d), r5)
                else none
              | [] => none
          else none
        | [] => none
  match dateP with
  | none => none
  | some ((y, mo, d), r5) =>
    match pWs r5 with
    | none => none
    | some r6 =>
      match p12 r6 with
      | none => none
      | some (h, r7) =>
        match r7 with
        | ':' :: r8 =>
          match p12 r8 with
          | none => none
          | some (mi, r9) =>
            let secP : Option (Nat × Str) :=
              if withSec then
                match r9 with
                | ':' :: r10 => p12 r10
                | _ => none
              else some (0, r9)
            match secP with
            | none => none
            | some (se, rest) =>
              if rest = [] ∧ 1 ≤ y ∧ y ≤ 9999 ∧ 1 ≤ mo ∧ mo ≤ 12 ∧ 1 ≤ d ∧
                 d ≤ CleanDetector.daysInMonth y mo ∧ h ≤ 23 ∧ mi ≤ 59 ∧ se ≤ 59 then
                some ⟨y, mo, d, h, mi, (se : ℚ), none⟩
              else none
        | _ => none

/-- Embeds `AdvancedSMSParser._parse_timestamp`
(src/ml_models/advanced_sms_parser.py lines 284-299): try
`%d/%m/%Y %H:%M`, `%d/%m/%Y %H:%M:%S`, `%d-%m-%Y %H:%M`, `%Y-%m-%d %H:%M`,
`%Y-%m-%d %H:%M:%S` in order, `none` when all raise `ValueError`. -/
def _parse_timestamp (s : Str) : Option CleanDetector.PyDateTime :=
  match tryFormat true '/' false s with
  | some dt => some dt
  | none =>
    match tryFormat true '/' true s with
    | some dt => some dt
    | none =>
      match tryFormat true '-' false s with
      | some dt => some dt
      | none =>
        match tryFormat false '-' false s with
        | some dt => some dt
        | none => tryFormat false '-' true s

/-- Left-pad a decimal rendering with zeros to `w` digits. -/
def padNum (w : Nat) (n : Nat) : Str :=
  let ds := strOf (toString n)
  List.replicate (w - ds.length) '0' ++ ds

/-- Python `datetime.isoformat()` for the whole-second naive datetimes
produced by `_parse_timestamp`. -/
def isoformat (dt : CleanDetector.PyDateTime) : Str :=
  padNum 4 dt.year.toNat ++ '-' :: padNum 2 dt.month ++ '-' :: padNum 2 dt.day ++
    'T' :: padNum 2 dt.hour ++ ':' :: padNum 2 dt.minute ++ ':' :: padNum 2 dt.second.num.toNat

/-- The sub-pattern `\d+(?:,\d{3})*(?:\.\d{2})?`. -/
def amountRe : Re :=
  cat [plus dQ, Re.star (cat [Re.lit (strOf ","), rng 3 3 dQ]),
       Re.opt (cat [Re.lit (strOf "."), rng 2 2 dQ])]

/-- The sub-pattern `\+?\d{10,15}`. -/
def phoneRe : Re := cat [Re.opt (Re.lit (strOf "+")), rng 10 15 dQ]

/-- The sub-pattern `\d{1,2}/\d{1,2}/\d{4} \d{1,2}:\d{2}` (the timestamp
group of the `momo_patterns`). -/
def tsRe : Re :=
  cat [rng 1 2 dQ, Re.lit (strOf "/"), rng 1 2 dQ, Re.lit (strOf "/"), rng 4 4 dQ,
       Re.lit (strOf " "), rng 1 2 dQ, Re.lit (strOf ":"), rng 2 2 dQ]

/-- The common tail `[:\.]? ?(\w+)` capturing the reference token as group 5. -/
def refTail : Re :=
  cat [Re.opt colonDotQ, Re.opt (Re.lit (strOf " ")), Re.grp 5 (plus wQ)]

/-- The `momo_patterns` of `AdvancedSMSParser`
(src/ml_models/advanced_sms_parser.py lines 21-34), transcribed in dictionary
order (english, kinyarwanda, french; two patterns each), each tagged with its
language. All are applied with `re.IGNORECASE | re.DOTALL`; the accented
literals (`reçu`, `référence`) are matched case-sensitively on the accent,
an ASCII approximation of `re.IGNORECASE`. -/
def momo_patterns : List (String × Re) :=
  [("english",
    cat [Re.opt (Re.litCI (strOf "you have ")), Re.litCI (strOf "received "),
         Re.opt (Re.litCI (strOf "rwf ")), Re.grp 1 amountRe, Re.litCI (strOf " from "),
         Re.grp 2 (plus noDigQ), Re.litCI (strOf " "), Re.grp 3 phoneRe, Re.starL anyQ,
         Re.litCI (strOf "on "), Re.grp 4 tsRe, Re.starL anyQ, Re.litCI (strOf "ref"),
         refTail]),
   ("english",
    cat [Re.opt (Re.litCI (strOf "payment of ")), Re.opt (Re.litCI (strOf "rwf ")),
         Re.grp 1 amountRe, Re.litCI (strOf " received from "), Re.grp 2 (plus noDigQ),
         Re.litCI (strOf " "), Re.grp 3 phoneRe, Re.starL anyQ, Re.grp 4 tsRe,
         Re.starL anyQ,
         altL [Re.litCI (strOf "reference"), Re.litCI (strOf "ref"), Re.litCI (strOf "id")],
         refTail]),
   ("kinyarwanda",
    cat [Re.opt (Re.litCI (strOf "wakiriye ")), Re.opt (Re.litCI (strOf "rwf ")),
         Re.grp 1 amountRe, Re.litCI (strOf " kuva "), Re.opt (Re.litCI (strOf "kwa ")),
         Re.grp 2 (plus noDigQ), Re.litCI (strOf " "), Re.grp 3 phoneRe, Re.starL anyQ,
         Re.litCI (strOf "ku "), Re.grp 4 tsRe, Re.starL anyQ, Re.litCI (strOf "ref"),
         refTail]),
   ("kinyarwanda",
    cat [Re.opt (Re.litCI (strOf "kwishyura ")), Re.opt (Re.litCI (strOf "rwf ")),
         Re.grp 1 amountRe, Re.litCI (strOf " "),
         Re.alt (Re.litCI (strOf "kuva")) (Re.litCI (strOf "kwa")), Re.litCI (strOf " "),
         Re.grp 2 (plus noDigQ), Re.litCI (strOf " "), Re.grp 3 phoneRe, Re.starL anyQ,
         Re.grp 4 tsRe, Re.starL anyQ,
         Re.alt (Re.litCI (strOf "nimero")) (Re.litCI (strOf "ref")), refTail]),
   ("french",
    cat [Re.opt (Re.litCI (strOf "vous avez ")), Re.litCI (strOf "reçu "),
         Re.opt (Re.litCI (strOf "rwf ")), Re.grp 1 amountRe, Re.litCI (strOf " de "),
         Re.grp 2 (plus noDigQ), Re.litCI (strOf " "), Re.grp 3 phoneRe, Re.starL anyQ,
         Re.litCI (strOf "le "), Re.grp 4 tsRe, Re.starL anyQ,
         Re.alt (Re.litCI (strOf "référence")) (Re.litCI (strOf "ref")), refTail]),
   ("french",
    cat [Re.opt (Re.litCI (strOf "paiement de ")), Re.opt (Re.litCI (strOf "rwf ")),
         Re.grp 1 amountRe, Re.litCI (strOf " reçu de "), Re.grp 2 (plus noDigQ),
         Re.litCI (strOf " "), Re.grp 3 phoneRe, Re.starL anyQ, Re.grp 4 tsRe,
         Re.starL anyQ,
         altL [Re.litCI (strOf "référence"), Re.litCI (strOf "ref"), Re.litCI (strOf "id")],
         refTail])]

/-- The dictionary built by the advanced parser stages. `language` is present
only for regex results, as in the source. -/
structure AdvParsed where
  amount : Option ℚ
  sender_name : Option Str
  sender_number : Option Str
  timestamp : Option Str
  txid : Option Str
  raw_text : Str
  parsing_method : String
  language : Option String
  confidence : ℚ
deriving DecidableEq

/-- Embeds `AdvancedSMSParser._regex_parse`
(src/ml_models/advanced_sms_parser.py lines 71-100): first matching pattern
builds the record with confidence 0.9; the enclosing `try/except` (which can
only fire on a malformed amount group) falls through to the next pattern. -/
def _regex_parse_go (text : Str) : List (String × Re) → Option AdvParsed
  | [] => none
  | (lang, r) :: rest =>
    match reSearch r text with
    | none => _regex_parse_go text rest
    | some cp =>
      match SmsParser.parseFloatQ (((groupN cp 1).getD []).filter (fun c => !(c = ','))) with
      | none => _regex_parse_go text rest
      | some amount =>
        some { amount := some amount
               sender_name := some (_clean_name (stripStr ((groupN cp 2).getD [])))
               sender_number := some (_normalize_phone ((groupN cp 3).getD []))
               timestamp := (_parse_timestamp ((groupN cp 4).getD [])).map isoformat
               txid := some (stripStr ((groupN cp 5).getD []))
               raw_text := text
               parsing_method := "regex"
               language := some lang
               confidence := 9/10 }

def _regex_parse (text : Str) : Option AdvParsed := _regex_parse_go text momo_patterns

/-- Embeds `AdvancedSMSParser._extract_amount_fallback`
(src/ml_models/advanced_sms_parser.py lines 221-233): first `findall` match
of `(\d+(?:,\d{3})*(?:\.\d{2})?)` whose value lies in `[100, 10000000]`. -/
def _extract_amount_fallback (text : Str) : Option ℚ :=
  (reFindAll (Re.grp 1 amountRe) text).firstM
    (fun g =>
      match SmsParser.parseFloatQ (g.filter (fun c => !(c = ','))) with
      | some a => if 100 ≤ a ∧ a ≤ 10000000 then some a else none
      | none => none)

/-- Embeds `AdvancedSMSParser._extract_phone_fallback`
(src/ml_models/advanced_sms_parser.py lines 235-241). -/
def _extract_phone_fallback (text : Str) : Option Str :=
  match reFindAll (Re.grp 1 phoneRe) text with
  | [] => none
  | p :: _ => some (_normalize_phone p)

/-- The three patterns of `_extract_timestamp`
(src/ml_models/advanced_sms_parser.py lines 191-203). -/
def tsSearchPatterns : List Re :=
  [Re.grp 1 (cat [rng 1 2 dQ, Re.lit (strOf "/"), rng 1 2 dQ, Re.lit (strOf "/"),
                  rng 4 4 dQ, plus sQ, rng 1 2 dQ, Re.lit (strOf ":"), rng 2 2 dQ,
                  Re.opt (cat [Re.lit (strOf ":"), rng 2 2 dQ])]),
   Re.grp 1 (cat [rng 1 2 dQ, Re.lit (strOf "-"), rng 1 2 dQ, Re.lit (strOf "-"),
                  rng 4 4 dQ, plus sQ, rng 1 2 dQ, Re.lit (strOf ":"), rng 2 2 dQ,
                  Re.opt (cat [Re.lit (strOf ":"), rng 2 2 dQ])]),
   Re.grp 1 (cat [rng 4 4 dQ, Re.lit (strOf "-"), rng 1 2 dQ, Re.lit (strOf "-"),
                  rng 1 2 dQ, plus sQ, rng 1 2 dQ, Re.lit (strOf ":"), rng 2 2 dQ,
                  Re.opt (cat [Re.lit (strOf ":"), rng 2 2 dQ])])]

/-- Embeds `AdvancedSMSParser._extract_timestamp`
(src/ml_models/advanced_sms_parser.py lines 191-203). -/
def _extract_timestamp_go : List Re → Str → Option CleanDetector.PyDateTime
  | [], _ => none
  | r :: rs, text =>
    match reSearch r text with
    | some cp => _parse_timestamp ((groupN cp 1).getD [])
    | none => _extract_timestamp_go rs text

def _extract_timestamp (text : Str) : Option CleanDetector.PyDateTime :=
  _extract_timestamp_go tsSearchPatterns text

/-- Embeds `AdvancedSMSParser._extract_txid_fallback`
(src/ml_models/advanced_sms_parser.py lines 243-253): `findall` of
`\b([A-Z0-9]{8,20})\b` (ignorecase), keeping the first token that is neither
all digits nor phone-shaped, upper-cased. -/
def _extract_txid_fallback (text : Str) : Option Str :=
  (reFindAll (cat [Re.wb, Re.grp 1 (rng 8 20 anQ), Re.wb]) text).firstM
    (fun m =>
      if ¬ (m ≠ [] ∧ m.all Char.isDigit) ∧
         ¬ (10 ≤ (digitsOf m).length ∧ (digitsOf m).length ≤ 15 ∧ m.all Char.isDigit) then
        some (upperStr m)
      else none)

/-- Embeds `AdvancedSMSParser._extract_name_fallback`
(src/ml_models/advanced_sms_parser.py lines 255-262): search (case-sensitive)
for `\b([A-Z][a-z]{2,}\s+[A-Z][a-z]{2,})\b`. -/
def _extract_name_fallback (text : Str) : Option Str :=
  let upperC : Re := Re.cls (fun c => 'A' ≤ c ∧ c ≤ 'Z')
  let lowerC : Re := Re.cls (fun c => 'a' ≤ c ∧ c ≤ 'z')
  let word : Re := cat [upperC, lowerC, lowerC, Re.star lowerC]
  match reSearch (cat [Re.wb, Re.grp 1 (cat [word, plus sQ, word]), Re.wb]) text with
  | some cp => (groupN cp 1).map stripStr
  | none => none

/-- Embeds `AdvancedSMSParser._ml_parse`
(src/ml_models/advanced_sms_parser.py lines 129-153): fallback extraction
that always returns a record, with confidence 0.4 / 0.6 / 0.7 depending on
which of amount, txid, phone resolved (Python truthiness spelled out). -/
def _ml_parse (text : Str) : AdvParsed :=
  let amount := _extract_amount_fallback text
  let phone := _extract_phone_fallback text
  let timestamp := _extract_timestamp text
  let txid := _extract_txid_fallback text
  let name := _extract_name_fallback text
  let amTruthy : Bool := match amount with | some a => decide (a ≠ 0) | none => false
  let txTruthy : Bool := match txid with | some t => decide (t ≠ []) | none => false
  let phTruthy : Bool := match phone with | some p => decide (p ≠ []) | none => false
  let confidence : ℚ :=
    if amTruthy && txTruthy && phTruthy then 7/10
    else if amTruthy && txTruthy then 6/10
    else 4/10
  { amount := amount
    sender_name := name
    sender_number := phone
    timestamp := timestamp.map isoformat
    txid := txid
    raw_text := text
    parsing_method := "ml_fallback"
    language := none
    confidence := confidence }

/-- Embeds `AdvancedSMSParser.parse_sms`
(src/ml_models/advanced_sms_parser.py lines 52-69) in the configuration
without the spaCy model (`nlp = None`, the import-time fallback), so the
`_nlp_parse` stage is skipped: a regex result with confidence above 0.8 is
returned, otherwise the `_ml_parse` fallback (which never returns `None`). -/
def parse_sms (sms_text : Str) : Option AdvParsed :=
  match _regex_parse sms_text with
  | some r => if 8/10 < r.confidence then some r else some (_ml_parse sms_text)
  | none => some (_ml_parse sms_text)

end AdvancedSmsParser

/-! Concrete inputs used by the claim theorems below. -/

/-- A legacy-detector input with a high amount and an invalid phone
(risk factors `high_amount` and `invalid_phone`, total 0.5). -/
def c3td : FraudDetector.TransactionData :=
  { txid := some (strOf "QWERTZ9Y8X"), phone := some (strOf "12345"),
    name := some (strOf "John Doe"), amount := some 600000 }

/-- A fixed wall-clock instant threaded as `datetime.now()`. -/
def now0 : CleanDetector.PyDateTime :=
  { year := 2024, month := 1, day := 15, hour := 12, minute := 0, second := 0, tzsec := none }

/-- Payment data for the C4 counterexample. -/
def c4pd : CleanDetector.PaymentData :=
  { txid := some (strOf "XYZ123"), sender_number := some (strOf "0788123456"),
    amount := some 10000, timestamp := none }

/-- C4 counterexample, phone-mismatch variant: txid mismatch (0.4), amount
mismatch (0.5) and suspicious short txid (0.3) already exceed the clamp. -/
def c4mm : CleanDetector.Transaction :=
  { txid := some (strOf "ABC"), phone := some (strOf "0711111111"), name := none,
    amount := some 5000, payment_data := some c4pd }

/-- C4 counterexample, phone-match variant (all else as `c4mm`). -/
def c4ma : CleanDetector.Transaction :=
  { txid := some (strOf "ABC"), phone := some (strOf "0788123456"), name := none,
    amount := some 5000, payment_data := some c4pd }

/-- Payment data for the C4 witness (clean claim, only the phone differs). -/
def c4wpd : CleanDetector.PaymentData :=
  { txid := some (strOf "TX123456789"), sender_number := some (strOf "0788123456"),
    amount := some 5000, timestamp := none }

/-- C4 witness, phone-mismatch variant. -/
def c4wmm : CleanDetector.Transaction :=
  { txid := some (strOf "TX123456789"), phone := some (strOf "0711111111"), name := none,
    amount := some 5000, payment_data := some c4wpd }

/-- C4 witness, phone-match variant. -/
def c4wma : CleanDetector.Transaction :=
  { txid := some (strOf "TX123456789"), phone := some (strOf "0788123456"), name := none,
    amount := some 5000, payment_data := some c4wpd }

/-- Payment data for the C5 witness: txid, sender phone and amount equal the
claim's. -/
def c5pd : CleanDetector.PaymentData :=
  { txid := some (strOf "TX123456789"), sender_number := some (strOf "0788123456"),
    amount := some 5000, timestamp := none }

/-- C5 witness claim, matching `c5pd` exactly. -/
def c5t : CleanDetector.Transaction :=
  { txid := some (strOf "TX123456789"), phone := some (strOf "0788123456"), name := none,
    amount := some 5000, payment_data := some c5pd }

/-- C9 counterexample claim: txid `XYXYXY` has only two distinct characters
but no adjacent repetition. -/
def c9t : CleanDetector.Transaction :=
  { txid := some (strOf "XYXYXY"), phone := none, name := none,
    amount := none, payment_data := none }

/-- First candidate of the C2 witness pool (txid three edits away). -/
def c2pa : Matcher.Payment :=
  { txid := some (strOf "TX111"), sender_number := some (strOf "0788123456"),
    amount := some 1000, timestamp := none }

/-- Second candidate of the C2 witness pool (identical to the claim). -/
def c2pb : Matcher.Payment :=
  { txid := some (strOf "TXABC"), sender_number := some (strOf "0788123456"),
    amount := some 1000, timestamp := none }

/-- The C2 witness pool. -/
def c2pool : List Matcher.Payment := [c2pa, c2pb]

/-- The SMS of the C10 witness. -/
def c10text : Str :=
  strOf "You have received RWF 5000 from John Doe +250788123456 on 15/08/2024 14:30. Ref: TX123456789"

/-- The record `parse_sms` produces on `c10text` (the confidence field is
left as the unevaluated `calculate_confidence` application so that the
equation with `parse_sms` is definitional). -/
def c10rec : SmsParser.Parsed :=
  { txid := strOf "TX123456789", amount := 5000,
    phone := some (strOf "250788123456"), name := some (strOf "John Doe"),
    raw_text := c10text,
    confidence := SmsParser.calculate_confidence (strOf "TX123456789") 5000
      (some (strOf "250788123456")) (some (strOf "John Doe")) }

/-! Helper lemmas. -/

theorem strOf_zero : strOf "0" = ['0'] := rfl

theorem strOf_250 : strOf "250" = ['2', '5', '0'] := rfl

theorem strOf_plus250 : strOf "+250" = ['+', '2', '5', '0'] := rfl

theorem strOf_plus : strOf "+" = ['+'] := rfl

theorem startsW_nil (pat : Str) : startsW pat [] = pat.isEmpty := by
  cases pat <;> simp [startsW, List.isEmpty]

theorem startsW_empty (s : Str) : startsW [] s = true := by
  cases s <;> rfl

theorem startsW_cons (p : Char) (ps : Str) (c : Char) (cs : Str) :
    startsW (p :: ps) (c :: cs) = (p == c && startsW ps cs) := rfl

theorem digitsOf_all (p : Str) : ∀ c ∈ digitsOf p, c.isDigit = true := by
  intro c hc
  exact (List.mem_filter.mp hc).2

theorem digitsOf_of_all {s : Str} (h : ∀ c ∈ s, c.isDigit = true) : digitsOf s = s :=
  List.filter_eq_self.mpr h

theorem digitsOf_append_250 (d : Str) (h : ∀ c ∈ d, c.isDigit = true) :
    digitsOf (strOf "250" ++ d) = strOf "250" ++ d := by
  refine digitsOf_of_all ?_
  intro c hc
  rcases List.mem_append.mp hc with h1 | h2
  · rw [strOf_250] at h1
    fin_cases h1 <;> decide
  · exact h c h2

theorem np_chars (p : Str) :
    ∀ c ∈ CleanDetector.normalize_phone p, (c.isDigit || c = '+') = true := by
  intro c hc
  unfold CleanDetector.normalize_phone at hc
  have hq : ∀ x ∈ CleanDetector.keepDigitsPlus p, (x.isDigit || x = '+') = true :=
    fun x hx => (List.mem_filter.mp hx).2
  split at hc
  · rcases List.mem_append.mp hc with h1 | h2
    · have hm : c ∈ ['+', '2', '5', '0'] := by rw [strOf_plus250] at h1; exact h1
      simp only [List.mem_cons, List.not_mem_nil, or_false] at hm
      rcases hm with rfl | rfl | rfl | rfl <;> decide
    · exact hq c (List.mem_of_mem_drop h2)
  · split at hc
    · rcases List.mem_cons.mp hc with h1 | h2
      · subst h1; decide
      · exact hq c h2
    · split at hc
      · rcases List.mem_cons.mp hc with h1 | h2
        · subst h1; decide
        · exact hq c h2
      · exact hq c hc

theorem np_plus_head (p : Str) : ∃ r, CleanDetector.normalize_phone p = '+' :: r := by
  unfold CleanDetector.normalize_phone
  split
  · exact ⟨_, rfl⟩
  · split
    · exact ⟨_, rfl⟩
    · split
      · exact ⟨_, rfl⟩
      · rename_i h1 h2 h3
        rw [not_not] at h3
        rcases hq : CleanDetector.keepDigitsPlus p with _ | ⟨c, cs⟩
        · rw [hq] at h3
          simp [startsW_nil, strOf_plus, List.isEmpty] at h3
        · rw [hq] at h3
          rw [strOf_plus, startsW_cons] at h3
          simp only [Bool.and_eq_true, beq_iff_eq] at h3
          exact ⟨cs, by rw [← h3.1]⟩

theorem keepDigitsPlus_np (p : Str) :
    CleanDetector.keepDigitsPlus (CleanDetector.normalize_phone p) =
      CleanDetector.normalize_phone p :=
  List.filter_eq_self.mpr (np_chars p)

theorem normalize_phone_idem (p : Str) :
    CleanDetector.normalize_phone (CleanDetector.normalize_phone p) =
      CleanDetector.normalize_phone p := by
  obtain ⟨r, hr⟩ := np_plus_head p
  have hk := keepDigitsPlus_np p
  rw [hr] at hk
  conv_lhs => rw [hr]
  rw [CleanDetector.normalize_phone, hk]
  rw [strOf_zero, strOf_250, strOf_plus, startsW_cons, startsW_cons, startsW_cons]
  simp [hr.symm, startsW_empty]

theorem startsW_append_self (l x : Str) : startsW l (l ++ x) = true := by
  induction l with
  | nil => exact startsW_empty x
  | cons c cs ih => simp [startsW_cons, ih]

theorem startsW_pos_ne_nil {a : Char} {l s : Str} (h : startsW (a :: l) s = true) :
    s ≠ [] := by
  cases s
  · simp [startsW] at h
  · simp

theorem clean_phone_fix (p s : Str) (h : SmsParser.clean_phone p = some s) :
    SmsParser.clean_phone s = some s := by
  have hd : ∀ c ∈ digitsOf p, c.isDigit = true := digitsOf_all p
  unfold SmsParser.clean_phone at h
  split at h
  · exact absurd h (by simp)
  · split at h
    · -- branch A: digits start with 250
      rename_i hA
      obtain rfl : digitsOf p = s := by injection h
      have hne : digitsOf p ≠ [] := by
        rw [strOf_250] at hA
        exact startsW_pos_ne_nil hA
      rw [SmsParser.clean_phone, if_neg (by simpa using hne), digitsOf_of_all hd,
        if_pos hA]
    · split at h
      · -- branch B: leading 0 and ten digits
        rename_i hA hB
        obtain rfl : strOf "250" ++ (digitsOf p).drop 1 = s := by injection h
        have hdrop : ∀ c ∈ (digitsOf p).drop 1, c.isDigit = true :=
          fun c hc => hd c (List.mem_of_mem_drop hc)
        have hds : digitsOf (strOf "250" ++ (digitsOf p).drop 1) =
            strOf "250" ++ (digitsOf p).drop 1 := digitsOf_append_250 _ hdrop
        rw [SmsParser.clean_phone, if_neg (by simp [strOf_250]), hds,
          if_pos (startsW_append_self _ _)]
      · split at h
        · -- branch C: nine digits
          rename_i hA hB hC
          obtain rfl : strOf "250" ++ digitsOf p = s := by injection h
          have hds : digitsOf (strOf "250" ++ digitsOf p) = strOf "250" ++ digitsOf p :=
            digitsOf_append_250 _ hd
          rw [SmsParser.clean_phone, if_neg (by simp [strOf_250]), hds,
            if_pos (startsW_append_self _ _)]
        · split at h
          · -- branch D: at least nine digits, returned unchanged
            rename_i hA hB hC hD
            obtain rfl : digitsOf p = s := by injection h
            have hne : digitsOf p ≠ [] := by
              intro hnil
              rw [hnil] at hD
              simp at hD
            have hlen10 : ¬(startsW (strOf "0") (digitsOf p) = true ∧
                (digitsOf p).length = 10) := by
              intro hx
              exact hB ⟨hx.1, hx.2⟩
            rw [SmsParser.clean_phone, if_neg (by simpa using hne), digitsOf_of_all hd,
              if_neg hA, if_neg hlen10, if_neg hC, if_pos hD]
          · exact absurd h (by simp)

/-- C8: phone normalization is idempotent, both for
`SimpleFraudDetector.normalize_phone` and for the extractor's
`SMSParser.clean_phone` (composed through `Option.bind`); in particular a
phone already in canonical form is left unchanged. -/
theorem claim_C8_normalize_idempotent : ∀ p : Str,
    CleanDetector.normalize_phone (CleanDetector.normalize_phone p) =
      CleanDetector.normalize_phone p ∧
    (SmsParser.clean_phone p).bind SmsParser.clean_phone = SmsParser.clean_phone p := by
  intro p
  refine ⟨normalize_phone_idem p, ?_⟩
  rcases hcp : SmsParser.clean_phone p with _ | s
  · rfl
  · simpa using clean_phone_fix p s hcp

theorem startsW_plus250_digits (p : Str) :
    startsW (strOf "+250") (digitsOf p) = false := by
  rcases hq : digitsOf p with _ | ⟨c, cs⟩
  · rw [strOf_plus250]; rfl
  · have hc : c.isDigit = true := by
      have := digitsOf_all p
      rw [hq] at this
      exact this c (by simp)
    rw [strOf_plus250, startsW_cons]
    have : ('+' == c) = false := by
      cases hbe : ('+' == c)
      · rfl
      · rw [beq_iff_eq] at hbe
        rw [← hbe] at hc
        exact absurd hc (by decide)
    simp [this]

theorem startsW_250_not_0 {d : Str} (h : startsW (strOf "250") d = true) :
    startsW (strOf "0") d = false := by
  rcases d with _ | ⟨c, cs⟩
  · rw [strOf_250] at h; exact absurd h (by decide)
  · rw [strOf_250, startsW_cons] at h
    simp only [Bool.and_eq_true, beq_iff_eq] at h
    rw [strOf_zero, startsW_cons, ← h.1]
    simp

/-- C7 (amended): the matcher's inline phone cleaning agrees with the
extractor's `clean_phone` exactly when the digit content starts with `250`,
or starts with `0` and has exactly 10 digits, or starts with neither and has
at least 10 digits; on all other inputs (bare 9-digit numbers, short or
empty strings, `0`-led numbers of other lengths) the two normalizations
disagree. -/
theorem claim_C7_amended : ∀ p : Str,
    (some (Matcher.cleanPhoneM p) = SmsParser.clean_phone p) ↔
      (startsW (strOf "250") (digitsOf p) = true ∨
       (startsW (strOf "0") (digitsOf p) = true ∧ (digitsOf p).length = 10) ∨
       (startsW (strOf "0") (digitsOf p) = false ∧
        startsW (strOf "250") (digitsOf p) = false ∧ 10 ≤ (digitsOf p).length)) := by
  intro p
  have hplus := startsW_plus250_digits p
  have h3 : (strOf "250").length = 3 := rfl
  by_cases hp : p = []
  · subst hp
    simp [Matcher.cleanPhoneM, SmsParser.clean_phone, digitsOf, strOf_250, strOf_zero,
      startsW_nil, List.isEmpty]
  · by_cases h250 : startsW (strOf "250") (digitsOf p) = true
    · have h0 : startsW (strOf "0") (digitsOf p) = false := startsW_250_not_0 h250
      simp [Matcher.cleanPhoneM, SmsParser.clean_phone, hp, h250, h0, hplus]
    · rw [Bool.not_eq_true] at h250
      by_cases h0 : startsW (strOf "0") (digitsOf p) = true
      · have hd1 : 1 ≤ (digitsOf p).length := by
          rcases hq : digitsOf p with _ | ⟨c, cs⟩
          · rw [hq, strOf_zero] at h0
            exact absurd h0 (by decide)
          · simp
        by_cases hlen : (digitsOf p).length = 10
        · simp [Matcher.cleanPhoneM, SmsParser.clean_phone, hp, h250, h0, hplus, hlen]
        · by_cases hlen9 : (digitsOf p).length = 9
          · have hne : (digitsOf p).tail ≠ digitsOf p := by
              intro he
              apply_fun List.length at he
              rw [List.length_tail] at he
              omega
            simp [Matcher.cleanPhoneM, SmsParser.clean_phone, hp, h250, h0, hplus, hlen,
              hlen9, hne]
          · by_cases hlen' : 9 ≤ (digitsOf p).length
            · have hne : strOf "250" ++ (digitsOf p).tail ≠ digitsOf p := by
                intro he
                apply_fun List.length at he
                rw [List.length_append, List.length_tail] at he
                omega
              simp [Matcher.cleanPhoneM, SmsParser.clean_phone, hp, h250, h0, hplus, hlen,
                hlen9, hlen', hne]
            · simp [Matcher.cleanPhoneM, SmsParser.clean_phone, hp, h250, h0, hplus, hlen,
                hlen9, hlen']
      · rw [Bool.not_eq_true] at h0
        by_cases hlen9 : (digitsOf p).length = 9
        · have hne : digitsOf p ≠ strOf "250" ++ digitsOf p := by
            intro he
            apply_fun List.length at he
            rw [List.length_append] at he
            omega
          simp [Matcher.cleanPhoneM, SmsParser.clean_phone, hp, h250, h0, hplus, hlen9, hne]
        · by_cases hlen' : 9 ≤ (digitsOf p).length
          · simp [Matcher.cleanPhoneM, SmsParser.clean_phone, hp, h250, h0, hplus, hlen9,
              hlen']
            omega
          · simp [Matcher.cleanPhoneM, SmsParser.clean_phone, hp, h250, h0, hplus, hlen9,
              hlen']
            omega

/-- C7 (counterexample): on the bare 9-digit local number `788123456` the
matcher's cleaning returns the digits unchanged while the extractor's
`clean_phone` prefixes `250`, so the two normalizations are not extensionally
equal. -/
theorem claim_C7_cex :
    some (Matcher.cleanPhoneM (strOf "788123456")) ≠
      SmsParser.clean_phone (strOf "788123456") := by
  decide

theorem risk_level_clean_spec (s : ℚ) :
    (CleanDetector.risk_level_of s = "HIGH" ↔ 8/10 ≤ s) ∧
    (CleanDetector.risk_level_of s = "MEDIUM" ↔ 6/10 ≤ s ∧ s < 8/10) ∧
    (CleanDetector.risk_level_of s = "LOW" ↔ 4/10 ≤ s ∧ s < 6/10) ∧
    (CleanDetector.risk_level_of s = "MINIMAL" ↔ s < 4/10) := by
  unfold CleanDetector.risk_level_of
  split_ifs with h1 h2 h3
  · refine ⟨by simp [h1], ?_, ?_, ?_⟩ <;> simp <;> intros <;> linarith
  · push_neg at h1
    refine ⟨by simp; linarith, by simp [h2, h1], ?_, ?_⟩ <;> simp <;> intros <;> linarith
  · push_neg at h1 h2
    refine ⟨by simp; linarith, by simp; intro _; linarith, by simp [h3, h2], ?_⟩
    simp
    linarith
  · push_neg at h1 h2 h3
    refine ⟨by simp; linarith, by simp; intro _; linarith, by simp; intro _; linarith,
      by simp [h3]⟩

theorem risk_level_legacy_spec (s : ℚ) :
    ((FraudDetector.risk_level_of s).1 = "HIGH" ↔ 8/10 ≤ s) ∧
    ((FraudDetector.risk_level_of s).1 = "MEDIUM" ↔ 1/2 ≤ s ∧ s < 8/10) ∧
    ((FraudDetector.risk_level_of s).1 = "LOW" ↔ 3/10 ≤ s ∧ s < 1/2) ∧
    ((FraudDetector.risk_level_of s).1 = "MINIMAL" ↔ s < 3/10) := by
  unfold FraudDetector.risk_level_of
  split_ifs with h1 h2 h3
  · refine ⟨by simp [h1], ?_, ?_, ?_⟩ <;> simp <;> intros <;> linarith
  · push_neg at h1
    refine ⟨by simp; linarith, by simp; constructor <;> linarith, ?_, ?_⟩ <;>
      simp <;> intros <;> linarith
  · push_neg at h1 h2
    refine ⟨by simp; linarith, by simp; intro _; linarith,
      by simp; constructor <;> linarith, ?_⟩
    simp
    linarith
  · push_neg at h1 h2 h3
    refine ⟨by simp; linarith, by simp; intro _; linarith, by simp; intro _; linarith,
      by simp [h3]⟩

/-- C3 (amended): in the clean detector (`fraud_detector_clean.py`) the tier
thresholds are 0.8 / 0.6 / 0.4 as the claim states and the recommendation is
a function of the tier alone; the legacy detector (`fraud_detector.py`)
instead tiers at 0.8 / 0.5 / 0.3 with actions block/review/flag/approve, also
a function of the tier alone. -/
theorem claim_C3_amended :
    (∀ t h now,
      ((CleanDetector.detect_fraud t h now).risk_level = "HIGH" ↔
        8/10 ≤ (CleanDetector.detect_fraud t h now).fraud_score) ∧
      ((CleanDetector.detect_fraud t h now).risk_level = "MEDIUM" ↔
        6/10 ≤ (CleanDetector.detect_fraud t h now).fraud_score ∧
        (CleanDetector.detect_fraud t h now).fraud_score < 8/10) ∧
      ((CleanDetector.detect_fraud t h now).risk_level = "LOW" ↔
        4/10 ≤ (CleanDetector.detect_fraud t h now).fraud_score ∧
        (CleanDetector.detect_fraud t h now).fraud_score < 6/10) ∧
      ((CleanDetector.detect_fraud t h now).risk_level = "MINIMAL" ↔
        (CleanDetector.detect_fraud t h now).fraud_score < 4/10) ∧
      (CleanDetector.detect_fraud t h now).recommendation =
        CleanDetector.get_recommendation 0 (CleanDetector.detect_fraud t h now).risk_level) ∧
    (∀ s l s', CleanDetector.get_recommendation s l = CleanDetector.get_recommendation s' l) ∧
    (∀ td,
      ((FraudDetector.detect_fraud td).risk_level = "HIGH" ↔
        8/10 ≤ (FraudDetector.detect_fraud td).risk_score) ∧
      ((FraudDetector.detect_fraud td).risk_level = "MEDIUM" ↔
        1/2 ≤ (FraudDetector.detect_fraud td).risk_score ∧
        (FraudDetector.detect_fraud td).risk_score < 8/10) ∧
      ((FraudDetector.detect_fraud td).risk_level = "LOW" ↔
        3/10 ≤ (FraudDetector.detect_fraud td).risk_score ∧
        (FraudDetector.detect_fraud td).risk_score < 1/2) ∧
      ((FraudDetector.detect_fraud td).risk_level = "MINIMAL" ↔
        (FraudDetector.detect_fraud td).risk_score < 3/10) ∧
      (FraudDetector.detect_fraud td).recommended_action =
        (FraudDetector.risk_level_of (FraudDetector.detect_fraud td).risk_score).2) := by
  refine ⟨?_, ?_, ?_⟩
  · intro t h now
    have hs : (CleanDetector.detect_fraud t h now).fraud_score =
        (CleanDetector.rule_based_checks t).2 * (7/10) +
          CleanDetector.behavioral_analysis t h now * (3/10) := rfl
    have hl : (CleanDetector.detect_fraud t h now).risk_level =
        CleanDetector.risk_level_of ((CleanDetector.detect_fraud t h now).fraud_score) := rfl
    obtain ⟨hH, hM, hL, hMin⟩ :=
      risk_level_clean_spec ((CleanDetector.detect_fraud t h now).fraud_score)
    rw [hl]
    exact ⟨hH, hM, hL, hMin, rfl⟩
  · intro s l s'
    rfl
  · intro td
    have hl : (FraudDetector.detect_fraud td).risk_level =
        (FraudDetector.risk_level_of ((FraudDetector.detect_fraud td).risk_score)).1 := rfl
    obtain ⟨hH, hM, hL, hMin⟩ :=
      risk_level_legacy_spec ((FraudDetector.detect_fraud td).risk_score)
    rw [hl]
    exact ⟨hH, hM, hL, hMin, rfl⟩

/-- C3 (counterexample): the legacy detector assigns tier MEDIUM to the risk
score 0.5 (high amount 0.3 + invalid phone 0.2), although the claim's
thresholds put every score below 0.6 outside MEDIUM. -/
theorem claim_C3_cex :
    (FraudDetector.detect_fraud c3td).risk_score = 1/2 ∧
    (FraudDetector.detect_fraud c3td).risk_level = "MEDIUM" ∧
    ¬(6/10 ≤ (FraudDetector.detect_fraud c3td).risk_score) := by
  have htx : FraudDetector.is_suspicious_txid (upperStr (strOf "QWERTZ9Y8X")) = false := by
    decide
  have hnm : FraudDetector.is_suspicious_name (lowerStr (strOf "John Doe")) = false := by
    decide
  have hph : FraudDetector.is_valid_phone (strOf "12345") = false := by decide
  have hsc : (FraudDetector.calculate_risk_score c3td).1 = 1/2 := by
    rw [FraudDetector.calculate_risk_score]
    simp only [c3td, Option.getD_some, htx, hnm, hph, FraudDetector.check_duplicate_risk,
      FraudDetector.check_time_anomaly, decide_eq_true_eq]
    rw [show (strOf "QWERTZ9Y8X").length = 10 from rfl]
    norm_num [min_def]
  have hrs : (FraudDetector.detect_fraud c3td).risk_score =
      (FraudDetector.calculate_risk_score c3td).1 := rfl
  have hrl : (FraudDetector.detect_fraud c3td).risk_level =
      (FraudDetector.risk_level_of ((FraudDetector.calculate_risk_score c3td).1)).1 := rfl
  refine ⟨by rw [hrs, hsc], ?_, ?_⟩
  · rw [hrl, hsc, FraudDetector.risk_level_of]
    norm_num
  · rw [hrs, hsc]
    norm_num

/-- C9 (amended): the clean detector's suspicious-txid rule (tag
`suspicious_txid_pattern`, weight 0.3) fires exactly when the txid is shorter
than 6 characters, has more adjacent equal pairs than a third of its length,
or starts with one of the sequential digit triples 012..890 — it has no
denylist or distinct-character test. The denylist (test/fake/fraud/scam/
dummy) and fewer-than-3-distinct-characters conditions of the claim belong to
the legacy detector's `is_suspicious_txid` (tag `suspicious_txid`), which
adds weight 0.4, not 0.3. -/
theorem claim_C9_amended : ∀ txid : Str,
    (CleanDetector.is_suspicious_txid txid = true ↔
      (txid.length < 6 ∨ txid.length < 3 * CleanDetector.repeatedChars txid ∨
       ∃ t ∈ CleanDetector.seqTriples, startsW t txid = true)) ∧
    (FraudDetector.is_suspicious_txid txid = true ↔
      (txid.length < 6 ∨
       (∃ pat ∈ FraudDetector.suspicious_patterns, hasSub pat (lowerStr txid) = true) ∨
       txid.dedup.length < 3 ∨
       ∃ pat ∈ FraudDetector.fakeHeads, startsW pat (lowerStr txid) = true)) ∧
    (∀ t : CleanDetector.Transaction,
      ("suspicious_txid_pattern" ∈ (CleanDetector.rule_based_checks t).1 ↔
        CleanDetector.is_suspicious_txid (t.txid.getD []) = true)) ∧
    (∀ td : FraudDetector.TransactionData,
      ("suspicious_txid" ∈ (FraudDetector.calculate_risk_score td).2 ↔
        FraudDetector.is_suspicious_txid (upperStr (td.txid.getD [])) = true)) := by
  intro txid
  refine ⟨?_, ?_, ?_, ?_⟩
  · rw [CleanDetector.is_suspicious_txid]
    have hdiv : ((txid.length : ℚ) / 3 < (CleanDetector.repeatedChars txid : ℚ)) ↔
        txid.length < 3 * CleanDetector.repeatedChars txid := by
      rw [div_lt_iff₀ (by norm_num), mul_comm]
      norm_cast
    split_ifs with h1 h2 h3
    · simp only [true_iff]
      rcases h1 with h | h
      · subst h; left; decide
      · exact Or.inl h
    · simp only [true_iff]
      exact Or.inr (Or.inl (hdiv.mp h2))
    · simp only [true_iff]
      refine Or.inr (Or.inr ?_)
      simpa [List.any_eq_true] using h3
    · simp only [Bool.false_eq_true, false_iff]
      push_neg at h1
      rintro (h | h | h)
      · exact absurd h (by omega)
      · exact absurd (hdiv.mpr h) h2
      · refine h3 ?_
        rw [List.any_eq_true]
        obtain ⟨t, ht, hst⟩ := h
        exact ⟨t, ht, hst⟩
  · rw [FraudDetector.is_suspicious_txid]
    split_ifs with h1 h2 h3 h4
    · simp only [true_iff]
      rcases h1 with h | h
      · subst h; left; decide
      · exact Or.inl h
    · simp only [true_iff]
      exact Or.inr (Or.inl (by simpa [List.any_eq_true] using h2))
    · simp only [true_iff]
      exact Or.inr (Or.inr (Or.inl h3))
    · simp only [true_iff]
      exact Or.inr (Or.inr (Or.inr (by simpa [List.any_eq_true] using h4)))
    · simp only [Bool.false_eq_true, false_iff]
      push_neg at h1
      rintro (h | h | h | h)
      · exact absurd h (by omega)
      · exact h2 (by rw [List.any_eq_true]; obtain ⟨t, ht, hst⟩ := h; exact ⟨t, ht, hst⟩)
      · exact h3 h
      · exact h4 (by rw [List.any_eq_true]; obtain ⟨t, ht, hst⟩ := h; exact ⟨t, ht, hst⟩)
  · intro t
    rw [CleanDetector.rule_based_checks]
    simp only [List.mem_append]
    split_ifs <;> simp_all
  · intro td
    rw [FraudDetector.calculate_risk_score]
    simp only [List.mem_append]
    split_ifs <;> simp_all

/-- C9 (counterexample): the txid `XYXYXY` has only 2 distinct characters,
so by the claim the rule should fire, but the clean detector does not flag
it (no adjacent repeats, long enough, no sequential prefix). -/
theorem claim_C9_cex :
    "suspicious_txid_pattern" ∉ (CleanDetector.rule_based_checks c9t).1 ∧
    (strOf "XYXYXY").dedup.length < 3 := by
  have h4 : CleanDetector.is_suspicious_txid (strOf "XYXYXY") = false := by
    rw [CleanDetector.is_suspicious_txid]
    rw [if_neg (by decide)]
    rw [show CleanDetector.repeatedChars (strOf "XYXYXY") = 0 from rfl]
    rw [show (strOf "XYXYXY").length = 6 from rfl]
    rw [if_neg (by norm_num)]
    rw [if_neg (by decide)]
  refine ⟨?_, by decide⟩
  rw [CleanDetector.rule_based_checks]
  simp only [c9t, Option.getD_some, h4]
  simp [CleanDetector.is_suspicious_timing, CleanDetector.normalize_phone]

theorem rule_score_shape (t : CleanDetector.Transaction) :
    (CleanDetector.rule_based_checks t).2 =
      min ((if decide (t.txid ≠ t.payment_data.bind CleanDetector.PaymentData.txid) then
              (4 : ℚ)/10 else 0) +
           (if decide (CleanDetector.normalize_phone (t.phone.getD []) ≠
                CleanDetector.normalize_phone
                  ((t.payment_data.bind CleanDetector.PaymentData.sender_number).getD []))
              then 3/10 else 0) +
           (if (t.amount.isSome && t.payment_data.isSome &&
                decide (1000 < |t.amount.getD 0 -
                  (t.payment_data.bind CleanDetector.PaymentData.amount).getD 0|))
              then 5/10 else 0) +
           (if CleanDetector.is_suspicious_txid (t.txid.getD []) then 3/10 else 0) +
           (if CleanDetector.is_suspicious_timing t then 2/10 else 0)) 1 := rfl

theorem fraud_score_shape (t : CleanDetector.Transaction)
    (hist : List CleanDetector.HistEntry) (now : CleanDetector.PyDateTime) :
    (CleanDetector.detect_fraud t hist now).fraud_score =
      (CleanDetector.rule_based_checks t).2 * (7/10) +
        CleanDetector.behavioral_analysis t hist now * (3/10) := rfl

/-- C5: a claim whose txid, phone and amount all exactly equal its matched
payment data, scored with no history, gets a final risk score strictly below
the MEDIUM threshold 0.6 (at most 0.44: only the suspicious-txid and timing
rules can still fire). -/
theorem claim_C5_match_below_medium (t : CleanDetector.Transaction)
    (pd : CleanDetector.PaymentData) (now : CleanDetector.PyDateTime)
    (hpd : t.payment_data = some pd) (htx : t.txid = pd.txid)
    (hph : t.phone = pd.sender_number) (ham : t.amount = pd.amount) :
    (CleanDetector.detect_fraud t [] now).fraud_score < 6/10 := by
  have hb : CleanDetector.behavioral_analysis t [] now = 3/10 := rfl
  rw [fraud_score_shape, hb, rule_score_shape]
  have hc1 : decide (t.txid ≠ t.payment_data.bind CleanDetector.PaymentData.txid) = false := by
    simp [hpd, htx]
  have hc2 : decide (CleanDetector.normalize_phone (t.phone.getD []) ≠
      CleanDetector.normalize_phone
        ((t.payment_data.bind CleanDetector.PaymentData.sender_number).getD [])) = false := by
    simp [hpd, hph]
  have hpa : t.payment_data.bind CleanDetector.PaymentData.amount = t.amount := by
    rw [hpd]
    simp [ham]
  have habs : |t.amount.getD 0 -
      (t.payment_data.bind CleanDetector.PaymentData.amount).getD 0| = 0 := by
    rw [hpa, sub_self, abs_zero]
  have hc3 : (t.amount.isSome && t.payment_data.isSome &&
      decide (1000 < |t.amount.getD 0 -
        (t.payment_data.bind CleanDetector.PaymentData.amount).getD 0|)) = false := by
    rw [habs]
    have hno : ¬((1000 : ℚ) < 0) := by norm_num
    simp [hno]
  rw [hc1, hc2, hc3]
  rcases hc4 : CleanDetector.is_suspicious_txid (t.txid.getD []) <;>
    rcases hc5 : CleanDetector.is_suspicious_timing t <;>
      simp [min_def] <;> norm_num

/-- C5 witness at a concrete matching claim. -/
theorem claim_C5_witness :
    (CleanDetector.detect_fraud c5t [] now0).fraud_score < 6/10 :=
  claim_C5_match_below_medium c5t c5pd now0 rfl rfl rfl rfl

/-- C4 (amended): with all other inputs held equal, a claim whose normalized
phone differs from the matched payment's sender phone scores at least as
high as the matching-phone claim, and strictly higher exactly in the
unclamped case, i.e. when the matching-phone claim's rule score is below
1.0; when the other fired rules already reach the clamp, both variants score
the same. -/
theorem claim_C4_amended (t1 t2 : CleanDetector.Transaction)
    (pd : CleanDetector.PaymentData) (hist : List CleanDetector.HistEntry)
    (now : CleanDetector.PyDateTime)
    (hpd : t1.payment_data = some pd)
    (heq : t2 = { t1 with phone := t2.phone })
    (hmm : CleanDetector.normalize_phone (t1.phone.getD []) ≠
      CleanDetector.normalize_phone (pd.sender_number.getD []))
    (hma : CleanDetector.normalize_phone (t2.phone.getD []) =
      CleanDetector.normalize_phone (pd.sender_number.getD [])) :
    (CleanDetector.detect_fraud t2 hist now).fraud_score ≤
      (CleanDetector.detect_fraud t1 hist now).fraud_score ∧
    ((CleanDetector.rule_based_checks t2).2 < 1 →
      (CleanDetector.detect_fraud t2 hist now).fraud_score <
        (CleanDetector.detect_fraud t1 hist now).fraud_score) := by
  obtain ⟨p2, rfl⟩ : ∃ p2, t2 = { t1 with phone := p2 } := ⟨t2.phone, heq⟩
  have hproj : ({ t1 with phone := p2 } : CleanDetector.Transaction).phone = p2 := rfl
  rw [hproj] at hma
  have hbe : CleanDetector.behavioral_analysis { t1 with phone := p2 } hist now =
      CleanDetector.behavioral_analysis t1 hist now := rfl
  have h5 : CleanDetector.is_suspicious_timing { t1 with phone := p2 } =
      CleanDetector.is_suspicious_timing t1 := rfl
  have hc2f : decide (CleanDetector.normalize_phone
      ((({ t1 with phone := p2 } : CleanDetector.Transaction).phone).getD []) ≠
      CleanDetector.normalize_phone
        ((({ t1 with phone := p2 } : CleanDetector.Transaction).payment_data.bind
          CleanDetector.PaymentData.sender_number).getD [])) = false := by
    have hpd2 : ({ t1 with phone := p2 } : CleanDetector.Transaction).payment_data =
        some pd := hpd
    simp [hpd2, hpd, hproj, hma]
  have hc2t : decide (CleanDetector.normalize_phone (t1.phone.getD []) ≠
      CleanDetector.normalize_phone
        ((t1.payment_data.bind CleanDetector.PaymentData.sender_number).getD [])) = true := by
    simp [hpd]
    exact hmm
  rw [fraud_score_shape, fraud_score_shape, hbe, rule_score_shape, rule_score_shape]
  rw [hc2f, hc2t, h5]
  have e1 : (({ t1 with phone := p2 } : CleanDetector.Transaction).txid = t1.txid) := rfl
  have e2 : (({ t1 with phone := p2 } : CleanDetector.Transaction).amount = t1.amount) := rfl
  have e3 : (({ t1 with phone := p2 } : CleanDetector.Transaction).payment_data =
      t1.payment_data) := rfl
  rw [e1, e2, e3]
  simp only [if_true, if_false, Bool.false_eq_true, add_zero]
  set a1 : ℚ := if decide (t1.txid ≠ t1.payment_data.bind CleanDetector.PaymentData.txid)
    then (4 : ℚ)/10 else 0 with ha1
  set a3 : ℚ := if (t1.amount.isSome && t1.payment_data.isSome &&
      decide (1000 < |t1.amount.getD 0 -
        (t1.payment_data.bind CleanDetector.PaymentData.amount).getD 0|))
    then (5 : ℚ)/10 else 0 with ha3
  set a4 : ℚ := if CleanDetector.is_suspicious_txid (t1.txid.getD []) then (3 : ℚ)/10 else 0
    with ha4
  set a5 : ℚ := if CleanDetector.is_suspicious_timing t1 then (2 : ℚ)/10 else 0 with ha5
  have h1 : 0 ≤ a1 := by rw [ha1]; split <;> norm_num
  have h3 : 0 ≤ a3 := by rw [ha3]; split <;> norm_num
  have h4 : 0 ≤ a4 := by rw [ha4]; split <;> norm_num
  have h5n : 0 ≤ a5 := by rw [ha5]; split <;> norm_num
  constructor
  · have hmin : min (a1 + a3 + a4 + a5) 1 ≤ min (a1 + 3/10 + a3 + a4 + a5) 1 :=
      min_le_min (by linarith) le_rfl
    have := mul_le_mul_of_nonneg_right hmin (by norm_num : (0 : ℚ) ≤ 7/10)
    linarith
  · intro hlt
    have ho : a1 + a3 + a4 + a5 < 1 := by
      by_contra hge
      push_neg at hge
      rw [min_eq_right hge] at hlt
      exact absurd hlt (by norm_num)
    have hmeq : min (a1 + a3 + a4 + a5) 1 = a1 + a3 + a4 + a5 :=
      min_eq_left (le_of_lt ho)
    have hstrict : min (a1 + a3 + a4 + a5) 1 < min (a1 + 3/10 + a3 + a4 + a5) 1 := by
      rw [hmeq]
      rcases le_or_lt (a1 + 3/10 + a3 + a4 + a5) 1 with hle | hgt
      · rw [min_eq_left hle]
        linarith
      · rw [min_eq_right (le_of_lt hgt)]
        exact ho
    have := mul_lt_mul_of_pos_right hstrict (by norm_num : (0 : ℚ) < 7/10)
    linarith

theorem is_suspicious_TX123456789 :
    CleanDetector.is_suspicious_txid (strOf "TX123456789") = false := by
  rw [CleanDetector.is_suspicious_txid]
  rw [if_neg (by decide)]
  rw [show CleanDetector.repeatedChars (strOf "TX123456789") = 0 from rfl]
  rw [show (strOf "TX123456789").length = 11 from rfl]
  rw [if_neg (by norm_num)]
  rw [if_neg (by decide)]

/-- C4 (counterexample): when the other fired rules (txid mismatch 0.4,
amount mismatch 0.5, suspicious txid 0.3) already exceed the clamp, the
phone-mismatch claim and the otherwise-identical phone-matching claim get
exactly the same final risk score 0.79, so the score is not strictly
higher. -/
theorem claim_C4_cex :
    CleanDetector.normalize_phone (c4mm.phone.getD []) ≠
      CleanDetector.normalize_phone (c4pd.sender_number.getD []) ∧
    CleanDetector.normalize_phone (c4ma.phone.getD []) =
      CleanDetector.normalize_phone (c4pd.sender_number.getD []) ∧
    c4ma = { c4mm with phone := c4ma.phone } ∧
    (CleanDetector.detect_fraud c4mm [] now0).fraud_score =
      (CleanDetector.detect_fraud c4ma [] now0).fraud_score ∧
    ¬((CleanDetector.detect_fraud c4ma [] now0).fraud_score <
      (CleanDetector.detect_fraud c4mm [] now0).fraud_score) := by
  have hsus : CleanDetector.is_suspicious_txid (strOf "ABC") = true := rfl
  have hlt : (1000 : ℚ) < |(5000 : ℚ) - (10000 : ℚ)| := by
    rw [show |(5000 : ℚ) - (10000 : ℚ)| = 5000 from by norm_num]
    norm_num
  have hsmm : (CleanDetector.detect_fraud c4mm [] now0).fraud_score = 79/100 := by
    rw [fraud_score_shape, rule_score_shape]
    rw [show CleanDetector.behavioral_analysis c4mm [] now0 = 3/10 from rfl]
    rw [show CleanDetector.is_suspicious_timing c4mm = false from rfl]
    simp only [c4mm, c4pd, Option.some_bind, Option.getD_some, Option.isSome_some,
      Bool.and_self, Bool.true_and]
    rw [decide_eq_true hlt]
    simp +decide [hsus]
    norm_num [min_def]
  have hsma : (CleanDetector.detect_fraud c4ma [] now0).fraud_score = 79/100 := by
    rw [fraud_score_shape, rule_score_shape]
    rw [show CleanDetector.behavioral_analysis c4ma [] now0 = 3/10 from rfl]
    rw [show CleanDetector.is_suspicious_timing c4ma = false from rfl]
    simp only [c4ma, c4pd, Option.some_bind, Option.getD_some, Option.isSome_some,
      Bool.and_self, Bool.true_and]
    rw [decide_eq_true hlt]
    simp +decide [hsus]
    norm_num [min_def]
  refine ⟨by decide, by decide, rfl, ?_, ?_⟩
  · rw [hsmm, hsma]
  · rw [hsmm, hsma]
    norm_num

/-- C4 witness: at a concrete unclamped claim pair the mismatching phone
strictly raises the score. -/
theorem claim_C4_witness :
    (CleanDetector.detect_fraud c4wma [] now0).fraud_score <
      (CleanDetector.detect_fraud c4wmm [] now0).fraud_score := by
  have hrule : (CleanDetector.rule_based_checks c4wma).2 < 1 := by
    rw [rule_score_shape]
    rw [show CleanDetector.is_suspicious_timing c4wma = false from rfl]
    rw [show CleanDetector.is_suspicious_txid ((c4wma.txid).getD []) = false from
      is_suspicious_TX123456789]
    simp only [c4wma, c4wpd, Option.some_bind, Option.getD_some, Option.isSome_some,
      Bool.and_self, Bool.true_and]
    rw [decide_eq_false (by norm_num : ¬((1000 : ℚ) < |(5000 : ℚ) - (5000 : ℚ)|))]
    simp +decide
  exact (claim_C4_amended c4wmm c4wma c4wpd [] now0 rfl rfl (by decide) (by decide)).2 hrule

theorem levRowAux_length (c1 : Char) : ∀ (b : Str) (prev : List Nat) (cur : Nat),
    prev.length = b.length + 1 →
    (Matcher.levRowAux c1 b prev cur).length = b.length := by
  intro b
  induction b with
  | nil => intro prev cur _; rfl
  | cons c2 bs ih =>
    intro prev cur h
    rcases prev with _ | ⟨p0, prev1⟩
    · simp at h
    rcases prev1 with _ | ⟨p1, ps⟩
    · simp at h
    simp only [Matcher.levRowAux, List.length_cons]
    rw [ih (p1 :: ps) _ (by simpa using h)]

theorem levRowAux_bound (c1 : Char) : ∀ (b : Str) (prev : List Nat) (cur i j0 : Nat),
    prev.length = b.length + 1 →
    (∀ k (hk : k < prev.length), prev.get ⟨k, hk⟩ ≤ max i (j0 + k)) →
    ∀ k (hk : k < (Matcher.levRowAux c1 b prev cur).length),
      (Matcher.levRowAux c1 b prev cur).get ⟨k, hk⟩ ≤ max (i + 1) (j0 + 1 + k) := by
  intro b
  induction b with
  | nil =>
    intro prev cur i j0 hlen hprev k hk
    simp [Matcher.levRowAux] at hk
  | cons c2 bs ih =>
    intro prev cur i j0 hlen hprev k hk
    rcases prev with _ | ⟨p0, prev1⟩
    · simp at hlen
    rcases prev1 with _ | ⟨p1, ps⟩
    · simp at hlen
    have hp0 : p0 ≤ max i (j0 + 0) := hprev 0 (by simp)
    have hm : min (p1 + 1) (min (cur + 1) (p0 + if c1 = c2 then 0 else 1)) ≤
        max (i + 1) (j0 + 1) := by
      have hsub : p0 + (if c1 = c2 then 0 else 1) ≤ max i j0 + 1 := by
        split <;> omega
      have : min (p1 + 1) (min (cur + 1) (p0 + if c1 = c2 then 0 else 1)) ≤
          p0 + (if c1 = c2 then 0 else 1) :=
        le_trans (min_le_right _ _) (min_le_right _ _)
      omega
    rcases k with _ | k
    · simpa [Matcher.levRowAux] using hm
    · have hrec := ih (p1 :: ps)
        (min (p1 + 1) (min (cur + 1) (p0 + if c1 = c2 then 0 else 1))) i (j0 + 1)
        (by simpa using hlen)
        (fun k2 hk2 => by
          have h2 := hprev (k2 + 1) (by simpa using hk2)
          simp only [List.get_cons_succ] at h2
          have heq : j0 + (k2 + 1) = j0 + 1 + k2 := by omega
          rw [heq] at h2
          exact h2)
        k
      simp only [Matcher.levRowAux, List.length_cons, List.get] at hk ⊢
      have hk2 : k < (Matcher.levRowAux c1 bs (p1 :: ps)
          (min (p1 + 1) (min (cur + 1) (p0 + if c1 = c2 then 0 else 1)))).length := by
        omega
      have := hrec hk2
      calc (Matcher.levRowAux c1 bs (p1 :: ps)
            (min (p1 + 1) (min (cur + 1) (p0 + if c1 = c2 then 0 else 1)))).get ⟨k, hk2⟩ ≤
          max (i + 1) (j0 + 1 + 1 + k) := this
        _ ≤ max (i + 1) (j0 + 1 + (k + 1)) := by omega

theorem levLoop_bound (b : Str) : ∀ (as : Str) (i : Nat) (prev : List Nat),
    prev.length = b.length + 1 →
    (∀ k (hk : k < prev.length), prev.get ⟨k, hk⟩ ≤ max i k) →
    (Matcher.levLoop b as i prev).length = b.length + 1 ∧
      ∀ k (hk : k < (Matcher.levLoop b as i prev).length),
        (Matcher.levLoop b as i prev).get ⟨k, hk⟩ ≤ max (i + as.length) k := by
  intro as
  induction as with
  | nil =>
    intro i prev h1 h2
    exact ⟨h1, by simpa using h2⟩
  | cons c1 rest ih =>
    intro i prev h1 h2
    have hauxlen : (Matcher.levRowAux c1 b prev (i + 1)).length = b.length :=
      levRowAux_length c1 b prev (i + 1) h1
    have hnewlen : ((i + 1) :: Matcher.levRowAux c1 b prev (i + 1)).length = b.length + 1 := by
      simp [hauxlen]
    have hnewbound : ∀ k (hk : k < ((i + 1) :: Matcher.levRowAux c1 b prev (i + 1)).length),
        ((i + 1) :: Matcher.levRowAux c1 b prev (i + 1)).get ⟨k, hk⟩ ≤ max (i + 1) k := by
      intro k hk
      rcases k with _ | k
      · simp
      · have hb := levRowAux_bound c1 b prev (i + 1) i 0 h1
          (fun k2 hk2 => by simpa using h2 k2 hk2) k (by simpa using hk)
        simp only [List.get_cons_succ]
        calc (Matcher.levRowAux c1 b prev (i + 1)).get ⟨k, by simpa using hk⟩ ≤
            max (i + 1) (0 + 1 + k) := hb
          _ ≤ max (i + 1) (k + 1) := by omega
    have hres := ih (i + 1) _ hnewlen hnewbound
    refine ⟨hres.1, ?_⟩
    intro k hk
    have := hres.2 k hk
    calc (Matcher.levLoop b rest (i + 1)
          ((i + 1) :: Matcher.levRowAux c1 b prev (i + 1))).get ⟨k, hk⟩ ≤
        max (i + 1 + rest.length) k := this
      _ ≤ max (i + (c1 :: rest).length) k := by simp [List.length_cons]; omega

theorem levCore_bound (a b : Str) : Matcher.levCore a b ≤ max a.length b.length := by
  have hinit_len : (List.range (b.length + 1)).length = b.length + 1 := by simp
  have hinit : ∀ k (hk : k < (List.range (b.length + 1)).length),
      (List.range (b.length + 1)).get ⟨k, hk⟩ ≤ max 0 k := by
    intro k hk
    simp [List.getElem_range]
  obtain ⟨hlen, hbound⟩ := levLoop_bound b a 0 _ hinit_len hinit
  rw [Matcher.levCore]
  have hk : b.length < (Matcher.levLoop b a 0 (List.range (b.length + 1))).length := by
    omega
  have hidx : (Matcher.levLoop b a 0 (List.range (b.length + 1))).length - 1 = b.length := by
    omega
  rw [List.getD_eq_getElem?_getD, hidx, List.getElem?_eq_getElem hk]
  have := hbound b.length hk
  simpa using this

theorem levRowAux_diag (c1 : Char) : ∀ (b : Str) (prev : List Nat) (cur k : Nat),
    prev.length = b.length + 1 →
    b[k]? = some c1 → prev[k]? = some 0 →
    (Matcher.levRowAux c1 b prev cur)[k]? = some 0 := by
  intro b
  induction b with
  | nil =>
    intro prev cur k _ hb _
    simp at hb
  | cons c2 bs ih =>
    intro prev cur k hpl hb hp
    rcases prev with _ | ⟨p0, prev1⟩
    · simp at hp
    rcases prev1 with _ | ⟨p1, ps⟩
    · simp at hpl
    rcases k with _ | k
    · simp only [List.getElem?_cons_zero, Option.some.injEq] at hb hp
      subst hb hp
      simp [Matcher.levRowAux]
    · simp only [List.getElem?_cons_succ] at hb hp
      simp only [Matcher.levRowAux, List.getElem?_cons_succ]
      exact ih (p1 :: ps) _ k (by simpa using hpl) hb hp

theorem levLoop_diag (b : Str) : ∀ (as : Str) (i : Nat) (prev : List Nat),
    prev.length = b.length + 1 →
    i + as.length = b.length →
    (∀ k, k < as.length → b[i + k]? = as[k]?) →
    prev[i]? = some 0 →
    (Matcher.levLoop b as i prev)[b.length]? = some 0 := by
  intro as
  induction as with
  | nil =>
    intro i prev _ hi _ hdiag
    simp only [Matcher.levLoop]
    have : i = b.length := by simpa using hi
    subst this
    exact hdiag
  | cons c1 rest ih =>
    intro i prev hpl hi halign hdiag
    have hc1 : b[i]? = some c1 := by
      have := halign 0 (by simp)
      simpa using this
    have hauxdiag : (Matcher.levRowAux c1 b prev (i + 1))[i]? = some 0 :=
      levRowAux_diag c1 b prev (i + 1) i hpl hc1 hdiag
    have hnewdiag : ((i + 1) :: Matcher.levRowAux c1 b prev (i + 1))[i + 1]? = some 0 := by
      simpa only [List.getElem?_cons_succ] using hauxdiag
    have hnewlen : ((i + 1) :: Matcher.levRowAux c1 b prev (i + 1)).length = b.length + 1 := by
      simp [levRowAux_length c1 b prev (i + 1) hpl]
    refine ih (i + 1) _ hnewlen (by simp only [List.length_cons] at hi; omega) ?_ hnewdiag
    intro k hk
    have h2 := halign (k + 1) (by simpa using hk)
    have heq : i + (k + 1) = i + 1 + k := by omega
    rw [heq] at h2
    simpa using h2

set_option maxHeartbeats 1000000 in
theorem levCore_self (a : Str) : Matcher.levCore a a = 0 := by
  have hdiag0 : (List.range (a.length + 1))[0]? = some 0 := by
    simp
  have hinit_len : (List.range (a.length + 1)).length = a.length + 1 := by simp
  have hlen := (levLoop_bound a a 0 _ hinit_len
    (fun k hk => by simp [List.getElem_range])).1
  have hval := levLoop_diag a a 0 (List.range (a.length + 1)) hinit_len (by omega)
    (fun k hk => by rw [Nat.zero_add]) hdiag0
  rw [Matcher.levCore]
  have hidx : (Matcher.levLoop a a 0 (List.range (a.length + 1))).length - 1 = a.length := by
    omega
  rw [List.getD_eq_getElem?_getD, hidx, hval]
  rfl

theorem lev_self (a : Str) : Matcher.levenshtein_distance a a = 0 := by
  rw [Matcher.levenshtein_distance, if_neg (lt_irrefl a.length)]
  exact levCore_self a

theorem lev_bound (a b : Str) :
    Matcher.levenshtein_distance a b ≤ max a.length b.length := by
  rw [Matcher.levenshtein_distance]
  split
  · calc Matcher.levCore b a ≤ max b.length a.length := levCore_bound b a
      _ = max a.length b.length := max_comm _ _
  · exact levCore_bound a b

theorem combinedScore_nonneg (ctxid cphone : Str) (camt : Option ℚ) (p : Matcher.Payment)
    (hca : ∀ a, camt = some a → 0 ≤ a)
    (hpa : ∀ a, p.amount = some a → 0 ≤ a) :
    0 ≤ Matcher.combinedScore ctxid cphone camt p := by
  have hden : (0 : ℚ) < ((max ctxid.length (max (p.txid.getD []).length 1) : Nat) : ℚ) := by
    have h1 : 1 ≤ max ctxid.length (max (p.txid.getD []).length 1) := by
      have := le_max_right (p.txid.getD []).length 1
      omega
    exact_mod_cast lt_of_lt_of_le zero_lt_one (by exact_mod_cast h1)
  have htx : (0 : ℚ) ≤ 1 - (Matcher.levenshtein_distance (lowerStr ctxid)
      (lowerStr (p.txid.getD [])) : ℚ) /
      ((max ctxid.length (max (p.txid.getD []).length 1) : Nat) : ℚ) := by
    have hle : Matcher.levenshtein_distance (lowerStr ctxid) (lowerStr (p.txid.getD [])) ≤
        max ctxid.length (max (p.txid.getD []).length 1) := by
      have hlb := lev_bound (lowerStr ctxid) (lowerStr (p.txid.getD []))
      rw [show (lowerStr ctxid).length = ctxid.length from List.length_map _ _,
        show (lowerStr (p.txid.getD [])).length = (p.txid.getD []).length from
          List.length_map _ _] at hlb
      omega
    have hq : (Matcher.levenshtein_distance (lowerStr ctxid) (lowerStr (p.txid.getD [])) : ℚ) /
        ((max ctxid.length (max (p.txid.getD []).length 1) : Nat) : ℚ) ≤ 1 := by
      rw [div_le_one hden]
      exact_mod_cast hle
    linarith
  have hph : (0 : ℚ) ≤ (if cphone = Matcher.cleanPhoneM (p.sender_number.getD [])
      then (1 : ℚ) else 0) := by
    split <;> norm_num
  rcases camt with _ | ca
  · simp only [Matcher.combinedScore]
    refine add_nonneg (add_nonneg (mul_nonneg htx (by norm_num))
      (mul_nonneg hph (by norm_num))) (by norm_num)
  · rcases eq_or_ne ca 0 with hc0 | hc0
    · subst hc0
      simp only [Matcher.combinedScore, if_pos rfl]
      refine add_nonneg (add_nonneg (mul_nonneg htx (by norm_num))
        (mul_nonneg hph (by norm_num))) (by norm_num)
    · have hcapos : 0 < ca := lt_of_le_of_ne (hca ca rfl) (Ne.symm hc0)
      have hdpos : (0 : ℚ) < max ca (max (p.amount.getD 1) 1) := by
        have h1 := le_max_right (p.amount.getD 1) (1 : ℚ)
        have h2 := le_max_right ca (max (p.amount.getD 1) 1)
        linarith
      have habs : |ca - p.amount.getD 0| ≤ max ca (max (p.amount.getD 1) 1) := by
        rcases hpaeq : p.amount with _ | a
        · simp only [Option.getD_none]
          rw [sub_zero, abs_of_pos hcapos]
          exact le_max_left _ _
        · have hae : 0 ≤ a := hpa a hpaeq
          simp only [hpaeq, Option.getD_some]
          rw [abs_le]
          have h4 : a ≤ max ca (max a 1) := le_trans (le_max_left a 1) (le_max_right ca _)
          have h5 : ca ≤ max ca (max a 1) := le_max_left _ _
          constructor <;> linarith
      have ham : (0 : ℚ) ≤ 1 - |ca - p.amount.getD 0| / max ca (max (p.amount.getD 1) 1) := by
        have hq : |ca - p.amount.getD 0| / max ca (max (p.amount.getD 1) 1) ≤ 1 := by
          rw [div_le_one hdpos]
          exact habs
        linarith
      simp only [Matcher.combinedScore, if_neg hc0]
      refine add_nonneg (add_nonneg (mul_nonneg htx (by norm_num))
        (mul_nonneg hph (by norm_num))) (mul_nonneg ham (by norm_num))

theorem matchFold_all_le (ctxid cphone : Str) (camt : Option ℚ) :
    ∀ (pool : List Matcher.Payment) (b0 : Option Matcher.Payment) (s0 : ℚ)
      (g0 : List Matcher.Suggestion),
      (∀ p ∈ pool, Matcher.combinedScore ctxid cphone camt p ≤ s0) →
      (pool.foldl (Matcher.matchStep ctxid cphone camt) (b0, s0, g0)).1 = b0 ∧
      (pool.foldl (Matcher.matchStep ctxid cphone camt) (b0, s0, g0)).2.1 = s0 := by
  intro pool
  induction pool with
  | nil => intro b0 s0 g0 _; exact ⟨rfl, rfl⟩
  | cons p rest ih =>
    intro b0 s0 g0 hall
    have hp : Matcher.combinedScore ctxid cphone camt p ≤ s0 := hall p (by simp)
    have hnot : ¬(s0 < Matcher.combinedScore ctxid cphone camt p) := not_lt.mpr hp
    simp only [List.foldl_cons, Matcher.matchStep, if_neg hnot]
    exact ih b0 s0 _ (fun q hq => hall q (by simp [hq]))

theorem matchFold_argmax (ctxid cphone : Str) (camt : Option ℚ) :
    ∀ (pool : List Matcher.Payment) (b0 : Option Matcher.Payment) (s0 : ℚ)
      (g0 : List Matcher.Suggestion),
      (∃ p ∈ pool, s0 < Matcher.combinedScore ctxid cphone camt p) →
      ∃ i, ∃ hi : i < pool.length,
        (pool.foldl (Matcher.matchStep ctxid cphone camt) (b0, s0, g0)).1 =
          some (pool.get ⟨i, hi⟩) ∧
        (pool.foldl (Matcher.matchStep ctxid cphone camt) (b0, s0, g0)).2.1 =
          Matcher.combinedScore ctxid cphone camt (pool.get ⟨i, hi⟩) ∧
        s0 < Matcher.combinedScore ctxid cphone camt (pool.get ⟨i, hi⟩) ∧
        (∀ j (hj : j < pool.length),
          Matcher.combinedScore ctxid cphone camt (pool.get ⟨j, hj⟩) ≤
            Matcher.combinedScore ctxid cphone camt (pool.get ⟨i, hi⟩)) ∧
        (∀ j (hj : j < pool.length), j < i →
          Matcher.combinedScore ctxid cphone camt (pool.get ⟨j, hj⟩) <
            Matcher.combinedScore ctxid cphone camt (pool.get ⟨i, hi⟩)) := by
  intro pool
  induction pool with
  | nil =>
    intro b0 s0 g0 hex
    simp at hex
  | cons p rest ih =>
    intro b0 s0 g0 hex
    by_cases hp : s0 < Matcher.combinedScore ctxid cphone camt p
    · simp only [List.foldl_cons, Matcher.matchStep, if_pos hp]
      by_cases hrest : ∃ q ∈ rest,
          Matcher.combinedScore ctxid cphone camt p < Matcher.combinedScore ctxid cphone camt q
      · obtain ⟨i, hi, hb, hs, hgt, hmax, hfirst⟩ :=
          ih (some p) (Matcher.combinedScore ctxid cphone camt p) _ hrest
        refine ⟨i + 1, by simpa using hi, hb, hs, lt_trans hp hgt, ?_, ?_⟩
        · intro j hj
          rcases j with _ | j
          · exact le_of_lt hgt
          · exact hmax j (by simpa using hj)
        · intro j hj hji
          rcases j with _ | j
          · exact hgt
          · exact hfirst j (by simpa using hj) (by omega)
      · push_neg at hrest
        obtain ⟨hb, hs⟩ := matchFold_all_le ctxid cphone camt rest (some p)
          (Matcher.combinedScore ctxid cphone camt p) _ hrest
        refine ⟨0, by simp, hb, hs, hp, ?_, ?_⟩
        · intro j hj
          rcases j with _ | j
          · exact le_rfl
          · exact hrest _ (by simp [List.get])
        · intro j hj hji
          omega
    · simp only [List.foldl_cons, Matcher.matchStep, if_neg hp]
      have hex2 : ∃ q ∈ rest, s0 < Matcher.combinedScore ctxid cphone camt q := by
        rcases hex with ⟨q, hq, hqs⟩
        rcases List.mem_cons.mp hq with rfl | hq2
        · exact absurd hqs hp
        · exact ⟨q, hq2, hqs⟩
      obtain ⟨i, hi, hb, hs, hgt, hmax, hfirst⟩ := ih b0 s0 _ hex2
      refine ⟨i + 1, by simpa using hi, hb, hs, hgt, ?_, ?_⟩
      · intro j hj
        rcases j with _ | j
        · exact le_trans (not_lt.mp hp) (le_of_lt hgt)
        · exact hmax j (by simpa using hj)
      · intro j hj hji
        rcases j with _ | j
        · exact lt_of_le_of_lt (not_lt.mp hp) hgt
        · exact hfirst j (by simpa using hj) (by omega)

/-- C2: with a claim amount that is nonnegative when supplied and a pool of
nonnegative-amount candidates, `match_transaction` returns as `payment` the
first candidate attaining the maximal combined score together with that score
as `confidence`, and the `payment = none` / `confidence = -1` /
`suggestions = []` state holds exactly for the empty pool. -/
theorem claim_C2_argmax (ctxid cphone : Str) (camt : Option ℚ)
    (pool : List Matcher.Payment)
    (hca : ∀ a, camt = some a → 0 ≤ a)
    (hpa : ∀ p ∈ pool, ∀ a, p.amount = some a → 0 ≤ a) :
    (((Matcher.match_transaction ctxid cphone camt pool).payment = none ∧
      (Matcher.match_transaction ctxid cphone camt pool).confidence = -1 ∧
      (Matcher.match_transaction ctxid cphone camt pool).suggestions = []) ↔ pool = []) ∧
    (pool ≠ [] → ∃ i, ∃ hi : i < pool.length,
      (Matcher.match_transaction ctxid cphone camt pool).payment =
        some (pool.get ⟨i, hi⟩) ∧
      (Matcher.match_transaction ctxid cphone camt pool).confidence =
        Matcher.combinedScore ctxid (Matcher.cleanPhoneM cphone) camt (pool.get ⟨i, hi⟩) ∧
      (∀ j (hj : j < pool.length),
        Matcher.combinedScore ctxid (Matcher.cleanPhoneM cphone) camt (pool.get ⟨j, hj⟩) ≤
          (Matcher.match_transaction ctxid cphone camt pool).confidence) ∧
      (∀ j (hj : j < pool.length), j < i →
        Matcher.combinedScore ctxid (Matcher.cleanPhoneM cphone) camt (pool.get ⟨j, hj⟩) <
          (Matcher.match_transaction ctxid cphone camt pool).confidence)) := by
  have hpp : (Matcher.match_transaction ctxid cphone camt pool).payment =
      (pool.foldl (Matcher.matchStep ctxid (Matcher.cleanPhoneM cphone) camt)
        (none, -1, [])).1 := rfl
  have hpc : (Matcher.match_transaction ctxid cphone camt pool).confidence =
      (pool.foldl (Matcher.matchStep ctxid (Matcher.cleanPhoneM cphone) camt)
        (none, -1, [])).2.1 := rfl
  have hmain : pool ≠ [] → ∃ i, ∃ hi : i < pool.length,
      (pool.foldl (Matcher.matchStep ctxid (Matcher.cleanPhoneM cphone) camt)
        (none, -1, [])).1 = some (pool.get ⟨i, hi⟩) ∧
      (pool.foldl (Matcher.matchStep ctxid (Matcher.cleanPhoneM cphone) camt)
        (none, -1, [])).2.1 =
        Matcher.combinedScore ctxid (Matcher.cleanPhoneM cphone) camt (pool.get ⟨i, hi⟩) ∧
      (-1 : ℚ) < Matcher.combinedScore ctxid (Matcher.cleanPhoneM cphone) camt
        (pool.get ⟨i, hi⟩) ∧
      (∀ j (hj : j < pool.length),
        Matcher.combinedScore ctxid (Matcher.cleanPhoneM cphone) camt (pool.get ⟨j, hj⟩) ≤
          Matcher.combinedScore ctxid (Matcher.cleanPhoneM cphone) camt (pool.get ⟨i, hi⟩)) ∧
      (∀ j (hj : j < pool.length), j < i →
        Matcher.combinedScore ctxid (Matcher.cleanPhoneM cphone) camt (pool.get ⟨j, hj⟩) <
          Matcher.combinedScore ctxid (Matcher.cleanPhoneM cphone) camt
            (pool.get ⟨i, hi⟩)) := by
    intro hne
    rcases hpool : pool with _ | ⟨ph, rest⟩
    · exact absurd hpool hne
    refine matchFold_argmax ctxid (Matcher.cleanPhoneM cphone) camt (ph :: rest) none (-1) []
      ⟨ph, by simp, ?_⟩
    have h0 : (0 : ℚ) ≤ Matcher.combinedScore ctxid (Matcher.cleanPhoneM cphone) camt ph :=
      combinedScore_nonneg ctxid (Matcher.cleanPhoneM cphone) camt ph hca
        (hpa ph (by rw [hpool]; simp))
    linarith
  constructor
  · constructor
    · rintro ⟨hpay, _, _⟩
      by_contra hne
      obtain ⟨i, hi, hb, _⟩ := hmain hne
      rw [hpp] at hpay
      rw [hpay] at hb
      exact Option.noConfusion hb
    · rintro rfl
      exact ⟨rfl, rfl, rfl⟩
  · intro hne
    obtain ⟨i, hi, hb, hs, _, hmax, hfirst⟩ := hmain hne
    refine ⟨i, hi, by rw [hpp]; exact hb, by rw [hpc]; exact hs, ?_, ?_⟩
    · intro j hj
      rw [hpc, hs]
      exact hmax j hj
    · intro j hj hji
      rw [hpc, hs]
      exact hfirst j hj hji

/-- Witness for C2: on the concrete two-candidate pool the sentinel state
(`payment = none`, `confidence = -1`, `suggestions = []`) does not occur. -/
theorem claim_C2_witness :
    ¬((Matcher.match_transaction (strOf "TXABC") (strOf "0788123456")
        (some (1000 : ℚ)) c2pool).payment = none ∧
      (Matcher.match_transaction (strOf "TXABC") (strOf "0788123456")
        (some (1000 : ℚ)) c2pool).confidence = -1 ∧
      (Matcher.match_transaction (strOf "TXABC") (strOf "0788123456")
        (some (1000 : ℚ)) c2pool).suggestions = []) := by
  have h := (claim_C2_argmax (strOf "TXABC") (strOf "0788123456") (some (1000 : ℚ)) c2pool
      (by intro a ha; injection ha with ha; rw [← ha]; norm_num)
      (by
        intro p hp a ha
        have hp' : p = c2pa ∨ p = c2pb := by simpa [c2pool] using hp
        rcases hp' with rfl | rfl
        · injection ha with ha; rw [← ha]; norm_num
        · injection ha with ha; rw [← ha]; norm_num)).1
  intro hc
  have hnil := h.mp hc
  simp [c2pool] at hnil

/-- C6 (amended): for a candidate whose txid, phone and amount equal the
claim's (amount nonzero), the combined score is exactly 1 in exact rational
arithmetic — `0.6*1 + 0.3*1 + 0.1*1` — but the binary64 evaluation the
source performs yields the double `0.6 + 0.3 + 0.1 = 9007199254740991 * 2^(-53)`,
which is strictly below 1. -/
theorem claim_C6_amended :
    (∀ (txid phone : Str) (amt : ℚ), amt ≠ 0 →
      Matcher.combinedScore txid (Matcher.cleanPhoneM phone) (some amt)
        ⟨some txid, some phone, some amt, none⟩ = 1) ∧
    (F64.combinedScoreF64 (strOf "TX123456789") (strOf "250788123456")
        (some (F64.fofNat 5000)) (strOf "TX123456789") (strOf "250788123456")
        (some (F64.fofNat 5000)) = ⟨9007199254740991, -53⟩ ∧
      F64.fval ⟨9007199254740991, -53⟩ ≠ 1) := by
  refine ⟨?_, ?_, ?_⟩
  · intro txid phone amt hne
    simp only [Matcher.combinedScore, Option.getD_some]
    rw [lev_self]
    rw [if_neg hne]
    simp [sub_self, abs_zero]
    norm_num
  · set_option maxRecDepth 40000 in decide
  · rw [F64.fval]
    rw [zpow_neg]
    intro h
    rw [mul_inv_eq_one₀ (by positivity)] at h
    norm_num at h

/-- Witness for C6 (amended), instantiating the rational part at concrete
identical claim/candidate data. -/
theorem claim_C6_amended_witness :
    Matcher.combinedScore (strOf "TX123456789")
      (Matcher.cleanPhoneM (strOf "250788123456")) (some 5000)
      ⟨some (strOf "TX123456789"), some (strOf "250788123456"), some 5000, none⟩ = 1 :=
  claim_C6_amended.1 (strOf "TX123456789") (strOf "250788123456") 5000 (by norm_num)

/-- Counterexample for C6: with claim and candidate both
(`TX123456789`, `250788123456`, amount 5000), the combined score computed in
binary64 arithmetic is the double `9007199254740991 * 2^(-53)`
(`0.9999999999999999`), not exactly 1. -/
theorem claim_C6_cex :
    F64.combinedScoreF64 (strOf "TX123456789") (strOf "250788123456")
        (some (F64.fofNat 5000)) (strOf "TX123456789") (strOf "250788123456")
        (some (F64.fofNat 5000)) = ⟨9007199254740991, -53⟩ ∧
      F64.fval ⟨9007199254740991, -53⟩ < 1 := by
  constructor
  · set_option maxRecDepth 40000 in decide
  · rw [F64.fval, zpow_neg]
    rw [mul_inv_lt_iff₀ (by positivity)]
    norm_num

theorem extract_amount_go_pos : ∀ (rs : List RE.Re) (text : Str) (a : ℚ),
    SmsParser.extract_amount_go rs text = some a → 0 < a := by
  intro rs
  induction rs with
  | nil =>
    intro text a h
    exact absurd h (by rw [SmsParser.extract_amount_go]; simp)
  | cons r rs ih =>
    intro text a h
    rw [SmsParser.extract_amount_go] at h
    split at h
    · split at h
      · split at h
        · rename_i hcond
          injection h with h
          rw [← h]
          exact hcond.2
        · exact ih text a h
      · exact ih text a h
    · exact ih text a h

theorem calc_conf_bounds (tx : Str) (am : ℚ) (phone name : Option Str)
    (htx : tx ≠ []) (ham : 0 < am) :
    1/2 ≤ SmsParser.calculate_confidence tx am phone name ∧
    SmsParser.calculate_confidence tx am phone name ≤ 1 := by
  have h2 : am ≠ 0 ∧ 0 < am := ⟨ne_of_gt ham, ham⟩
  simp only [SmsParser.calculate_confidence, if_pos h2]
  rcases phone with _ | p <;> rcases name with _ | n <;> dsimp only <;> rw [min_def] <;>
    constructor <;> split_ifs <;> norm_num

/-- C10: whenever the pattern-based parser returns a record, its confidence
lies in `[0.5, 1]`: the mandatory transaction id contributes at least `0.2`,
the mandatory positive amount `0.3`, and the total is clamped at `1`. -/
theorem claim_C10_confidence (text : Str) (r : SmsParser.Parsed)
    (h : SmsParser.parse_sms text = some r) :
    1/2 ≤ r.confidence ∧ r.confidence ≤ 1 := by
  simp only [SmsParser.parse_sms] at h
  split at h
  · exact absurd h (by simp)
  · split at h
    · exact absurd h (by simp)
    · split at h
      · rename_i tx am htxeq hameq
        split at h
        · exact absurd h (by simp)
        · rename_i hcond
          push_neg at hcond
          injection h with h
          rw [← h]
          exact calc_conf_bounds tx am _ _ hcond.1
            (extract_amount_go_pos SmsParser.amountPatterns _ _ hameq)
      · exact absurd h (by simp)

set_option maxRecDepth 1000000 in
/-- Witness for C10 on the MTN sample SMS, whose parse succeeds. -/
theorem claim_C10_witness :
    1/2 ≤ c10rec.confidence ∧ c10rec.confidence ≤ 1 :=
  claim_C10_confidence c10text c10rec (by rfl)

theorem startsW_iff_isPrefix : ∀ (p s : Str), startsW p s = true ↔ p <+: s
  | [], s => by simp [startsW]
  | c :: cs, [] => by simp [startsW]
  | c :: cs, d :: ds => by
    simp [startsW, startsW_iff_isPrefix cs ds, List.cons_prefix_cons]

theorem hasSub_iff_isInfix : ∀ (p s : Str), hasSub p s = true ↔ p <:+: s
  | p, [] => by simp [hasSub, List.isEmpty_iff]
  | p, c :: cs => by
    simp [hasSub, startsW_iff_isPrefix, hasSub_iff_isInfix p cs, List.infix_cons_iff]

theorem stripStr_isInfix (s : Str) : stripStr s <:+: s := by
  have h1 : s.dropWhile pySpace <:+ s := List.dropWhile_suffix _
  have h2 : (s.dropWhile pySpace).reverse.dropWhile pySpace <:+ (s.dropWhile pySpace).reverse :=
    List.dropWhile_suffix _
  have h3 : ((s.dropWhile pySpace).reverse.dropWhile pySpace).reverse <+: s.dropWhile pySpace := by
    have := List.reverse_prefix.mpr h2
    simpa using this
  exact h3.isInfix.trans h1.isInfix

theorem hasSub_lower_strip (kw text : Str) (h : hasSub kw (lowerStr text) = false) :
    hasSub kw (lowerStr (stripStr text)) = false := by
  by_contra hc
  rw [Bool.not_eq_false] at hc
  have hi : kw <:+: lowerStr (stripStr text) := (hasSub_iff_isInfix _ _).mp hc
  have hii : kw <:+: lowerStr text := hi.trans ((stripStr_isInfix text).map Char.toLower)
  rw [(hasSub_iff_isInfix _ _).mpr hii] at h
  exact Bool.noConfusion h

/-- C1 (amended): the pattern-based parser (`sms_parser.py`) returns `None`
on the empty string, on any string containing no payment keyword, and
whenever transaction-id or amount extraction fails — as the claim states;
but the advanced parser's extraction entry point
(`advanced_sms_parser.py parse_sms`, whose `_ml_parse` stage the claim also
cites) never returns `None` on any input. -/
theorem claim_C1_amended :
    (∀ text : Str, text = [] → SmsParser.parse_sms text = none) ∧
    (∀ text : Str, (∀ kw ∈ SmsParser.payment_keywords, hasSub kw (lowerStr text) = false) →
      SmsParser.parse_sms text = none) ∧
    (∀ text : Str, SmsParser.extract_txid (stripStr text) = none ∨
        SmsParser.extract_amount (stripStr text) = none →
      SmsParser.parse_sms text = none) ∧
    (∀ text : Str, AdvancedSmsParser.parse_sms text ≠ none) := by
  refine ⟨?_, ?_, ?_, ?_⟩
  · intro text h
    rw [SmsParser.parse_sms, if_pos h]
  · intro text h
    simp only [SmsParser.parse_sms]
    split
    · rfl
    · rw [if_pos]
      intro hany
      rw [List.any_eq_true] at hany
      obtain ⟨kw, hkw, htrue⟩ := hany
      rw [hasSub_lower_strip kw text (h kw hkw)] at htrue
      exact Bool.noConfusion htrue
  · intro text h
    rcases hx : SmsParser.extract_txid (stripStr text) with _ | tx
    · rcases h with h | h <;> simp [SmsParser.parse_sms, hx]
    · rcases h with h | h
      · rw [hx] at h; exact Option.noConfusion h
      · simp [SmsParser.parse_sms, hx, h]
  · intro text
    rcases hr : AdvancedSmsParser._regex_parse text with _ | r <;>
      simp [AdvancedSmsParser.parse_sms, hr] <;> split <;> simp

set_option maxRecDepth 100000 in
/-- Counterexample for C1: on the empty string the advanced parser does not
return `None` — it returns the `_ml_parse` fallback record, with no
transaction id, no amount, and confidence `0.4`. -/
theorem claim_C1_cex :
    AdvancedSmsParser.parse_sms [] = some (AdvancedSmsParser._ml_parse []) ∧
    (AdvancedSmsParser._ml_parse []).txid = none ∧
    (AdvancedSmsParser._ml_parse []).amount = none ∧
    (AdvancedSmsParser._ml_parse []).confidence = 4/10 := by
  refine ⟨rfl, rfl, rfl, ?_⟩
  norm_num [AdvancedSmsParser._ml_parse, AdvancedSmsParser._extract_amount_fallback,
    AdvancedSmsParser._extract_txid_fallback, AdvancedSmsParser._extract_phone_fallback,
    AdvancedSmsParser._extract_timestamp, AdvancedSmsParser._extract_name_fallback]

set_option maxRecDepth 100000 in
/-- Witness for C1 (amended): a keyword-free string parses to `None` in the
pattern-based parser, while the advanced parser returns non-`None` even on
the empty string. -/
theorem claim_C1_witness :
    SmsParser.parse_sms (strOf "hello there general") = none ∧
    AdvancedSmsParser.parse_sms [] ≠ none :=
  ⟨claim_C1_amended.2.1 (strOf "hello there general") (by decide),
   claim_C1_amended.2.2.2 []⟩
